import Mathlib

/-!
Verification development for the FroLang tree-walking interpreter
(mochatek/frolang): a shallow embedding in Lean 4 of the lexer
(lexer/lexer.go), the parser (parser/parser.go), the AST with its String
renderings (ast/ast.go), the runtime object model and environments
(object/object.go, object/environment.go) and the evaluator
(evaluator/evaluator.go, evaluator/builtin.go), together with theorems
settling the specification claims.

Modelling conventions:
* Go `int` (64-bit on the project's linux/amd64 build) is embedded as
  `Int` with two's-complement wrapping made explicit (`wrap64`); Go
  `uint64` casts are `u64ofInt`.
* Go `float64` is embedded as `GoFloat`, an exact rational (integer
  numerator over positive integer denominator, unnormalized), with
  exact arithmetic.  Every float value appearing in a theorem below
  (2.0, 2.1, promotions of small integers) is exactly representable in
  IEEE 754 binary64 and the comparisons proved are unaffected by
  rounding, so the exact model and the machine behaviour agree on all
  stated facts.  Float division by a zero-valued divisor produces
  IEEE infinities or NaN in Go; the model's value there is a
  denominator-zero representation no theorem relies on.
* A Go interface value that may be `nil` is `Option Object`; a Go
  runtime panic (integer division by zero, index out of range, nil
  dereference) is a distinguished `panicked` outcome, distinct from a
  FroLang `Error` object.
* Go maps used as dictionaries are association lists (lookup and
  replace-on-insert agree with Go; Go's randomized iteration order is
  fixed to insertion order, noted where it could matter).
-/

namespace FroLang

/-- Two's-complement wrap of an integer into the range of a 64-bit Go `int`. -/
def wrap64 (z : Int) : Int :=
  (z + 2 ^ 63) % 2 ^ 64 - 2 ^ 63

/-- The Go conversion `uint64(v)` of a 64-bit integer value, as a natural number. -/
def u64ofInt (z : Int) : Nat :=
  (z % 2 ^ 64).toNat

/-- UTF-8 encoding of one character, as byte values (what `[]byte(s)` yields per char). -/
def utf8Bytes (c : Char) : List Nat :=
  let n := c.toNat
  if n < 128 then [n]
  else if n < 2048 then [192 + n / 64, 128 + n % 64]
  else if n < 65536 then [224 + n / 4096, 128 + n / 64 % 64, 128 + n % 64]
  else [240 + n / 262144, 128 + n / 4096 % 64, 128 + n / 64 % 64, 128 + n % 64]

/-- The byte sequence of a Go string (Go strings are UTF-8 byte sequences). -/
def goBytes (s : String) : List Nat :=
  s.data.flatMap utf8Bytes

/-- The Go `len` of a string: its length in bytes. -/
def goStrLen (s : String) : Nat :=
  (goBytes s).length

/-- One step of the FNV-1a 64-bit hash: XOR in a byte, multiply by the FNV prime. -/
def fnvStep (h b : Nat) : Nat :=
  ((h ^^^ b) * 1099511628211) % 2 ^ 64

/-- FNV-1a 64-bit hash of a byte sequence, as in `hash/fnv.New64a` used by
`String.HashKey` in object/object.go. -/
def fnv64a (bytes : List Nat) : Nat :=
  bytes.foldl fnvStep 14695981039346656037

/-- Exact-rational model of a Go float64 value: an integer numerator
over a (by construction nonnegative) integer denominator, without
normalization; see the float modelling convention above. -/
structure GoFloat where
  num : Int
  den : Int
deriving DecidableEq, Repr

/-- The Go conversion float64(int): exact in the model. -/
def fofInt (z : Int) : GoFloat :=
  { num := z, den := 1 }

/-- Exact float addition. -/
def fAdd (a b : GoFloat) : GoFloat :=
  { num := a.num * b.den + b.num * a.den, den := a.den * b.den }

/-- Exact float subtraction. -/
def fSub (a b : GoFloat) : GoFloat :=
  { num := a.num * b.den - b.num * a.den, den := a.den * b.den }

/-- Exact float multiplication. -/
def fMul (a b : GoFloat) : GoFloat :=
  { num := a.num * b.num, den := a.den * b.den }

/-- Exact float division (sign kept in the numerator); a zero-valued
divisor yields a denominator-zero representation (Go: infinity/NaN),
out of the model. -/
def fDiv (a b : GoFloat) : GoFloat :=
  if b.num < 0 then { num := -(a.num * b.den), den := a.den * -b.num }
  else { num := a.num * b.den, den := a.den * b.num }

/-- Float negation. -/
def fNeg (a : GoFloat) : GoFloat :=
  { num := -a.num, den := a.den }

/-- Float value equality (cross multiplication; denominators are
nonnegative by construction). -/
def fEqB (a b : GoFloat) : Bool :=
  a.num * b.den == b.num * a.den

/-- Float value strict order. -/
def fLtB (a b : GoFloat) : Bool :=
  decide (a.num * b.den < b.num * a.den)

/-- Float value non-strict order. -/
def fLeB (a b : GoFloat) : Bool :=
  decide (a.num * b.den ≤ b.num * a.den)

/-- Character classifier for Go `unicode` digits restricted to ASCII as the
lexer sees bytes: decimal digit test. -/
def isDigitByte (c : Char) : Bool :=
  '0' ≤ c && c ≤ '9'

/-- Value of a digit character. -/
def digitVal (c : Char) : Nat :=
  c.toNat - '0'.toNat

/-- Natural number denoted by a list of digit characters. -/
def digitsVal (cs : List Char) : Nat :=
  cs.foldl (fun acc c => acc * 10 + digitVal c) 0

/-- Go `strconv.Atoi` on the literals the lexer can classify as INTEGER
(strings of decimal digits, with an optional sign accepted by Atoi):
returns the value when it fits a 64-bit int, an error (`none`) otherwise. -/
def atoi? (s : String) : Option Int :=
  let core : List Char → Option Int := fun ds =>
    if ds.isEmpty then none
    else if ds.all isDigitByte then some (Int.ofNat (digitsVal ds)) else none
  match s.data with
  | '-' :: rest => (core rest).bind fun v =>
      if -v < -(2 ^ 63) then none else some (-v)
  | '+' :: rest => (core rest).bind fun v =>
      if v > 2 ^ 63 - 1 then none else some v
  | ds => (core ds).bind fun v =>
      if v > 2 ^ 63 - 1 then none else some v

/-- Exact rational denoted by digit lists `intPart . fracPart`. -/
def decimalVal (intPart fracPart : List Char) : GoFloat :=
  { num := digitsVal intPart * 10 ^ fracPart.length + digitsVal fracPart,
    den := (10 : Int) ^ fracPart.length }

/-- Go `strconv.ParseFloat` on the number-shaped literals the lexer can
produce (characters drawn from digits, dot and minus): accepts an optional
leading sign and digits with at most one dot and at least one digit, and
is an error (`none`) otherwise.  The value is modelled exactly (see the
float modelling convention above). -/
def parseGoFloat? (s : String) : Option GoFloat :=
  let core : List Char → Option GoFloat := fun ds =>
    match ds.splitOn '.' with
    | [intPart] =>
        if ds.isEmpty then none
        else if intPart.all isDigitByte then some (fofInt (digitsVal intPart)) else none
    | [intPart, fracPart] =>
        if intPart.isEmpty && fracPart.isEmpty then none
        else if intPart.all isDigitByte && fracPart.all isDigitByte then
          some (decimalVal intPart fracPart)
        else none
    | _ => none
  match s.data with
  | '-' :: rest => (core rest).map fNeg
  | '+' :: rest => core rest
  | ds => core ds

/-! ## Tokens (token/token.go)

Token types are strings in the source; they are kept as strings here.
The keyword table in the token file present under src/ predates the
parser: the parser references TRY, CATCH, FINALLY, BREAK and CONTINUE
token types that the current token file (missing from src/) must define.
Those five entries are modelled from the spec (§3 lists break, continue
and try/catch/finally statements) and the parser's usage. -/

/-- Token type tag, a string exactly as in token/token.go. -/
abbrev TokenType := String

/-- A lexical token: type, literal text and source location. -/
structure Token where
  type : TokenType
  literal : String
  location : String
deriving DecidableEq, Repr

namespace token

def IDENTIFIER : TokenType := "IDENTIFIER"
def INTEGER : TokenType := "INTEGER"
def FLOAT : TokenType := "FLOAT"
def TRUE : TokenType := "TRUE"
def FALSE : TokenType := "FALSE"
def STRING : TokenType := "STRING"
def PLUS : TokenType := "+"
def MINUS : TokenType := "-"
def ASTERISK : TokenType := "*"
def SLASH : TokenType := "/"
def BANG : TokenType := "!"
def ASSIGN : TokenType := "="
def EQ : TokenType := "=="
def NOT_EQ : TokenType := "!="
def LT : TokenType := "<"
def LT_EQ : TokenType := "<="
def GT : TokenType := ">"
def GT_EQ : TokenType := ">="
def AND : TokenType := "&"
def OR : TokenType := "|"
def L_PAREN : TokenType := "("
def R_PAREN : TokenType := ")"
def L_BRACE : TokenType := "\x7b"
def R_BRACE : TokenType := "\x7d"
def L_BRACKET : TokenType := "["
def R_BRACKET : TokenType := "]"
def COMMA : TokenType := ","
def SEMICOLON : TokenType := ";"
def COLON : TokenType := ":"
def O_COMMENT : TokenType := "/*"
def C_COMMENT : TokenType := "*/"
def LET : TokenType := "LET"
def IF : TokenType := "IF"
def ELSE : TokenType := "ELSE"
def FOR : TokenType := "FOR"
def WHILE : TokenType := "WHILE"
def FUNCTION : TokenType := "FUNCTION"
def RETURN : TokenType := "RETURN"
def IN : TokenType := "in"
def EOF : TokenType := "EOF"
def ILLEGAL : TokenType := "ILLEGAL"

/-- Modelled from the spec: token type for the `break` statement keyword
(referenced by parser.go; the current token file is missing from src/). -/
def BREAK : TokenType := "BREAK"

/-- Modelled from the spec: token type for the `continue` statement keyword. -/
def CONTINUE : TokenType := "CONTINUE"

/-- Modelled from the spec: token type for the `try` keyword. -/
def TRY : TokenType := "TRY"

/-- Modelled from the spec: token type for the `catch` keyword. -/
def CATCH : TokenType := "CATCH"

/-- Modelled from the spec: token type for the `finally` keyword. -/
def FINALLY : TokenType := "FINALLY"

/-- The keyword dictionary of token/token.go, extended (modelled from the
spec and the parser's token usage) with the five statement keywords the
current token file must contain. -/
def Keywords : List (String × TokenType) :=
  [("let", LET), ("true", TRUE), ("false", FALSE), ("in", IN), ("if", IF),
   ("else", ELSE), ("for", FOR), ("while", WHILE), ("fn", FUNCTION),
   ("return", RETURN), ("break", BREAK), ("continue", CONTINUE),
   ("try", TRY), ("catch", CATCH), ("finally", FINALLY)]

/-- Keyword lookup: a keyword maps to its type, anything else is an identifier. -/
def LookUpKeywords (word : String) : TokenType :=
  match (Keywords.find? fun p => p.fst == word) with
  | some p => p.snd
  | none => IDENTIFIER

end token

/-! ## AST (ast/ast.go)

The statement set follows parser.go, which builds let, return,
expression, for, while, break, continue and try statements; block
statements are the bodies of block-delimited constructs.  Expression
nodes record the token literals that their String renderings print.
A Go `nil` node (produced by parser error paths) is `Option`; a failed
statement sub-parse that Go appends as a typed-nil interface value is
the `failedStatement` marker. -/

mutual

inductive Expr where
  | identifier (value : String) (loc : String)
  | integerLiteral (value : Int) (lit : String)
  | floatLiteral (value : GoFloat) (lit : String)
  | booleanLiteral (value : Bool) (lit : String)
  | stringLiteral (value : String)
  | prefixExpression (op : String) (right : Option Expr)
  | infixExpression (left : Option Expr) (op : String) (right : Option Expr)
  | assignExpression (varName : String) (varLoc : String) (value : Option Expr)
  | indexExpression (array : Option Expr) (index : Option Expr)
  | ifExpression (condition : Option Expr) (consequence : Option (List Stmt))
      (alternate : Option (List Stmt))
  | callExpression (function : Option Expr) (arguments : List (Option Expr))
  | arrayLiteral (elements : List (Option Expr))
  | hashLiteral (pairs : List (Option Expr × Option Expr))
  | functionLiteral (parameters : List String) (body : Option (List Stmt))

inductive Stmt where
  | letStatement (name : String) (value : Option Expr)
  | returnStatement (value : Option Expr)
  | expressionStatement (e : Option Expr)
  | forStatement (element : String) (elemLoc : String) (iterator : Option Expr)
      (body : Option (List Stmt))
  | whileStatement (condition : Option Expr) (body : Option (List Stmt))
  | breakStatement
  | continueStatement
  | tryStatement (tryBlock : Option (List Stmt)) (errName : String) (errLoc : String)
      (catchBlock : Option (List Stmt)) (finallyBlock : Option (List Stmt))
  | failedStatement

end

/-- A program is a sequence of statements. -/
structure Program where
  statements : List Stmt

/-- Joins rendered pieces with a comma and space (strings.Join with ", "). -/
def joinComma (parts : List String) : String :=
  String.intercalate ", " parts

mutual

/-- String rendering of an expression, following the String() methods in
ast/ast.go.  Literals print their token literal; infix prints
`left op right` with single spaces and no parentheses; a `nil`
sub-expression is printed where Go checks for nil (expression statement,
let, return) and would be a nil dereference elsewhere — those paths are
rendered as the empty string and are not exercised by any theorem.  The
fuel is an embedding artifact (the recursion is over a nested inductive);
every rendering proved about below certifies its sufficiency. -/
def renderExpr : Nat → Expr → String
  | 0, _ => ""
  | fuel + 1, e =>
      match e with
      | .identifier v _ => v
      | .integerLiteral _ lit => lit
      | .floatLiteral _ lit => lit
      | .booleanLiteral _ lit => lit
      | .stringLiteral v => v
      | .prefixExpression op r => op ++ renderOptExpr fuel r
      | .infixExpression l op r =>
          renderOptExpr fuel l ++ " " ++ op ++ " " ++ renderOptExpr fuel r
      | .assignExpression v _ value => v ++ " = " ++ renderOptExpr fuel value
      | .indexExpression a i =>
          renderOptExpr fuel a ++ "[" ++ renderOptExpr fuel i ++ "]"
      | .ifExpression c cons alt =>
          let head := "if(" ++ renderOptExpr fuel c ++ ") " ++ renderOptBlock fuel cons
          match alt with
          | some b => head ++ " else " ++ renderBlock fuel b
          | none => head
      | .callExpression f args =>
          renderOptExpr fuel f ++ "(" ++ joinComma (renderOptExprList fuel args) ++ ")"
      | .arrayLiteral elems => "[" ++ joinComma (renderOptExprList fuel elems) ++ "]"
      | .hashLiteral pairs => "\x7b" ++ joinComma (renderPairList fuel pairs) ++ "\x7d"
      | .functionLiteral params body =>
          "fn(" ++ joinComma params ++ ") " ++ renderOptBlock fuel body

/-- Rendering of a possibly-nil expression (see renderExpr). -/
def renderOptExpr : Nat → Option Expr → String
  | 0, _ => ""
  | fuel + 1, e =>
      match e with
      | some e => renderExpr fuel e
      | none => ""

/-- Renders each element of an expression list. -/
def renderOptExprList : Nat → List (Option Expr) → List String
  | 0, _ => []
  | fuel + 1, es =>
      match es with
      | [] => []
      | e :: rest => renderOptExpr fuel e :: renderOptExprList fuel rest

/-- Renders hash pairs as `key:value`, as HashLiteral.String does. -/
def renderPairList : Nat → List (Option Expr × Option Expr) → List String
  | 0, _ => []
  | fuel + 1, ps =>
      match ps with
      | [] => []
      | (k, v) :: rest =>
          (renderOptExpr fuel k ++ ":" ++ renderOptExpr fuel v)
            :: renderPairList fuel rest

/-- String rendering of a statement, following ast/ast.go. -/
def renderStmt : Nat → Stmt → String
  | 0, _ => ""
  | fuel + 1, s =>
      match s with
      | .letStatement name v => "let " ++ name ++ " = " ++ renderOptExpr fuel v
      | .returnStatement v => "return " ++ renderOptExpr fuel v
      | .expressionStatement e => renderOptExpr fuel e
      | .forStatement elem _ iter body =>
          "for(" ++ elem ++ " in " ++ renderOptExpr fuel iter ++ ") "
            ++ renderOptBlock fuel body
      | .whileStatement c body =>
          "while(" ++ renderOptExpr fuel c ++ ") " ++ renderOptBlock fuel body
      | .breakStatement => "break"
      | .continueStatement => "continue"
      | .tryStatement t errName _ c fin =>
          let head := "try " ++ renderOptBlock fuel t ++ " catch(" ++ errName
            ++ ") " ++ renderOptBlock fuel c
          match fin with
          | some b => head ++ " finally " ++ renderBlock fuel b
          | none => head
      | .failedStatement => ""

/-- String rendering of a block statement: an opening brace, each
statement on its own line, a closing brace (BlockStatement.String). -/
def renderBlock : Nat → List Stmt → String
  | 0, _ => ""
  | fuel + 1, stmts => "\x7b" ++ renderBlockBody fuel stmts ++ "\n\x7d"

/-- Renders the newline-prefixed statements of a block body. -/
def renderBlockBody : Nat → List Stmt → String
  | 0, _ => ""
  | fuel + 1, stmts =>
      match stmts with
      | [] => ""
      | s :: rest => "\n" ++ renderStmt fuel s ++ renderBlockBody fuel rest

/-- Rendering of a possibly-nil block: Go would dereference the nil
pointer here; the nil case is never reached by the renderings proved
about below. -/
def renderOptBlock : Nat → Option (List Stmt) → String
  | 0, _ => ""
  | fuel + 1, b =>
      match b with
      | some b => renderBlock fuel b
      | none => ""

end

/-- String rendering of a program: the concatenation of its statements'
renderings with no separator (Program.String in ast/ast.go). -/
def renderProgram (p : Program) : String :=
  String.join (p.statements.map (renderStmt 1000))

/-! ## Lexer (lexer/lexer.go)

The input string is modelled as its character list; every program
appearing in a theorem below is ASCII, where Go's byte-indexed scanning
and character indexing coincide.  The character value 0 marks
end-of-input exactly as in the source. -/

/-- The zero byte the lexer uses as its end-of-input sentinel. -/
def nulChar : Char := Char.ofNat 0

/-- Character of the input at an index, 0 past the end. -/
def charAtIdx (input : List Char) (i : Nat) : Char :=
  if h : i < input.length then input.get ⟨i, h⟩ else nulChar

/-- Lexer state: input, current character, current and peek positions,
line and column counters. -/
structure Lexer where
  input : List Char
  char : Char
  curPosition : Nat
  peekPosition : Nat
  line : Nat
  col : Nat
deriving Repr

namespace Lexer

/-- Reads one character: loads the character at peekPosition (0 at end),
advances both position pointers and the column counter. -/
def readChar (lx : Lexer) : Lexer :=
  { lx with
    char := charAtIdx lx.input lx.peekPosition
    curPosition := lx.peekPosition
    peekPosition := lx.peekPosition + 1
    col := lx.col + 1 }

/-- Constructor: initializes the fields and reads once (lexer.New). -/
def new (input : List Char) : Lexer :=
  readChar { input := input, char := nulChar, curPosition := 0, peekPosition := 0,
             line := 1, col := 0 }

/-- Compares the character at peekPosition (0 at end) with an expected one. -/
def peekCharIs (lx : Lexer) (expected : Char) : Bool :=
  charAtIdx lx.input lx.peekPosition == expected

/-- Keeps reading while the assertion holds on the current character
(readAheadIfPeekChar's loop); the fuel bounds the scan by the remaining
input, which suffices because the assertions reject the 0 sentinel. -/
def readAheadAux (assert : Char → Bool) : Nat → Lexer → Lexer
  | 0, lx => lx
  | fuel + 1, lx => if assert lx.char then readAheadAux assert fuel (readChar lx) else lx

/-- Reads ahead while the assertion holds and returns the scanned slice
of the input together with the advanced lexer. -/
def readAheadIfPeekChar (lx : Lexer) (assert : Char → Bool) : String × Lexer :=
  let startIndex := lx.curPosition
  let lx2 := readAheadAux assert (lx.input.length + 1 - lx.curPosition) lx
  (String.mk ((lx.input.drop startIndex).take (lx2.curPosition - startIndex)), lx2)

/-- The loop of readString: advances until a closing quote or end of input. -/
def readStringAux : Nat → Lexer → Lexer
  | 0, lx => lx
  | fuel + 1, lx =>
      let lx2 := readChar lx
      if lx2.char == '"' || lx2.char == nulChar then lx2 else readStringAux fuel lx2

/-- Reads a string literal body (between the quotes) and returns it with
the advanced lexer (readString). -/
def readStr (lx : Lexer) : String × Lexer :=
  let startIndex := lx.curPosition + 1
  let lx2 := readStringAux (lx.input.length + 2) lx
  (String.mk ((lx.input.drop startIndex).take (lx2.curPosition - startIndex)), lx2)

/-- Whitespace test of skipWhiteSpace. -/
def isWhite (c : Char) : Bool :=
  c == ' ' || c == '\t' || c == '\r' || c == '\n'

/-- Skips whitespace, counting lines and resetting the column on newlines. -/
def skipWhiteSpaceAux : Nat → Lexer → Lexer
  | 0, lx => lx
  | fuel + 1, lx =>
      if lx.char != nulChar && isWhite lx.char then
        let lx' := if lx.char == '\n' then { lx with line := lx.line + 1, col := 0 } else lx
        skipWhiteSpaceAux fuel (readChar lx')
      else lx

/-- Skips whitespace (skipWhiteSpace). -/
def skipWhiteSpace (lx : Lexer) : Lexer :=
  skipWhiteSpaceAux (lx.input.length + 1 - lx.curPosition) lx

end Lexer

/-- Letter test of the lexer (isLetter). -/
def isLetter (c : Char) : Bool :=
  ('a' ≤ c && c ≤ 'z') || ('A' ≤ c && c ≤ 'Z') || c == '_'

/-- Number-character test of the lexer (isNumber): digits, dot and minus. -/
def isNumberChar (c : Char) : Bool :=
  ('0' ≤ c && c ≤ '9') || c == '.' || c == '-'

/-- Keyword/identifier resolution (resolveType). -/
def resolveType (word : String) : TokenType :=
  token.LookUpKeywords word

/-- Token type of a number literal (resolveNumberType): ILLEGAL when
strconv.ParseFloat rejects it, FLOAT when it contains a dot, INTEGER
otherwise. -/
def resolveNumberType (number : String) : TokenType :=
  if (parseGoFloat? number).isNone then token.ILLEGAL
  else if number.data.contains '.' then token.FLOAT
  else token.INTEGER

/-- Helper createToken of the lexer. -/
def createToken (tokenType : TokenType) (literal : Char) (location : String) : Token :=
  { type := tokenType, literal := String.mk [literal], location := location }

namespace Lexer

/-- Builds a two-character token from the current character and the one
just read (the ==, !=, <=, >=, comment-marker cases). -/
def twoCharToken (tokenType : TokenType) (lx : Lexer) (location : String)
    : Token × Lexer :=
  let c := lx.char
  let lx2 := readChar lx
  ({ type := tokenType, literal := String.mk [c, lx2.char], location := location }, lx2)

/-- ReadToken: skips whitespace, forms one token from the current
character(s), and leaves the lexer one character past it (except for
identifier/keyword and number tokens, which return without the extra
read, exactly as the source does). -/
def ReadToken (lx0 : Lexer) : Token × Lexer :=
  let lx := skipWhiteSpace lx0
  let location := toString lx.line ++ ":" ++ toString lx.col
  let simple : TokenType → Token × Lexer := fun t =>
    (createToken t lx.char location, readChar lx)
  if lx.char == nulChar then simple token.EOF
  else if lx.char == '+' then simple token.PLUS
  else if lx.char == '-' then simple token.MINUS
  else if lx.char == '(' then simple token.L_PAREN
  else if lx.char == ')' then simple token.R_PAREN
  else if lx.char == '\x7b' then simple token.L_BRACE
  else if lx.char == '\x7d' then simple token.R_BRACE
  else if lx.char == '[' then simple token.L_BRACKET
  else if lx.char == ']' then simple token.R_BRACKET
  else if lx.char == ',' then simple token.COMMA
  else if lx.char == ';' then simple token.SEMICOLON
  else if lx.char == ':' then simple token.COLON
  else if lx.char == '&' then simple token.AND
  else if lx.char == '|' then simple token.OR
  else if lx.char == '/' then
    if lx.peekCharIs '*' then
      let (tok, lx2) := twoCharToken token.O_COMMENT lx location
      (tok, readChar lx2)
    else simple token.SLASH
  else if lx.char == '*' then
    if lx.peekCharIs '/' then
      let (tok, lx2) := twoCharToken token.C_COMMENT lx location
      (tok, readChar lx2)
    else simple token.ASTERISK
  else if lx.char == '=' then
    if lx.peekCharIs '=' then
      let (tok, lx2) := twoCharToken token.EQ lx location
      (tok, readChar lx2)
    else simple token.ASSIGN
  else if lx.char == '!' then
    if lx.peekCharIs '=' then
      let (tok, lx2) := twoCharToken token.NOT_EQ lx location
      (tok, readChar lx2)
    else simple token.BANG
  else if lx.char == '<' then
    if lx.peekCharIs '=' then
      let (tok, lx2) := twoCharToken token.LT_EQ lx location
      (tok, readChar lx2)
    else simple token.LT
  else if lx.char == '>' then
    if lx.peekCharIs '=' then
      let (tok, lx2) := twoCharToken token.GT_EQ lx location
      (tok, readChar lx2)
    else simple token.GT
  else if lx.char == '"' then
    let (s, lx2) := lx.readStr
    ({ type := token.STRING, literal := s, location := location }, readChar lx2)
  else if isLetter lx.char then
    let (word, lx2) := lx.readAheadIfPeekChar isLetter
    ({ type := resolveType word, literal := word, location := location }, lx2)
  else if isNumberChar lx.char then
    let (number, lx2) := lx.readAheadIfPeekChar isNumberChar
    ({ type := resolveNumberType number, literal := number, location := location }, lx2)
  else simple token.ILLEGAL

end Lexer

/-- Collects tokens by repeated ReadToken calls up to and including the
first EOF token (how the parser consumes the lexer). -/
def tokenizeAux : Nat → Lexer → List Token
  | 0, _ => []
  | fuel + 1, lx =>
      let (tok, lx2) := lx.ReadToken
      if tok.type == token.EOF then [tok] else tok :: tokenizeAux fuel lx2

/-- Tokenizes a source string into its token list (ending with EOF). -/
def tokenize (source : String) : List Token :=
  tokenizeAux (source.data.length + 1) (Lexer.new source.data)

/-! ## Parser (parser/parser.go)

The parser state holds the token stream (the Go parser pulls tokens
lazily from the lexer; pre-tokenizing is equivalent because lexing does
not depend on parsing), the current position (curToken is the token at
`pos`, peekToken the one after) and the accumulated error list.  All
recursive parse functions take an explicit fuel that is threaded through
every call; parsed results for the concrete programs in the theorems
below certify that the fuel provided is sufficient. -/

/-- Precedence scores (the iota block of parser.go). -/
def LOWEST : Nat := 1
def EQUALS : Nat := 2
def LESS_GREATER : Nat := 3
def SUM : Nat := 4
def PRODUCT : Nat := 5
def PREFIX : Nat := 6
def CALL : Nat := 7
def INDEX : Nat := 8

/-- Operator precedence table (precedenceMap in parser.go). -/
def precedenceMap : List (TokenType × Nat) :=
  [(token.ASSIGN, EQUALS), (token.EQ, EQUALS), (token.NOT_EQ, EQUALS),
   (token.AND, EQUALS), (token.OR, EQUALS), (token.IN, EQUALS),
   (token.LT, LESS_GREATER), (token.LT_EQ, LESS_GREATER),
   (token.GT, LESS_GREATER), (token.GT_EQ, LESS_GREATER),
   (token.PLUS, SUM), (token.MINUS, SUM),
   (token.ASTERISK, PRODUCT), (token.SLASH, PRODUCT),
   (token.L_PAREN, CALL), (token.L_BRACKET, INDEX)]

/-- Token types with a registered infix parse function other than call,
index and assignment (the registerInfixParser calls in New). -/
def infixOperatorTokens : List TokenType :=
  [token.PLUS, token.MINUS, token.ASTERISK, token.SLASH, token.EQ,
   token.NOT_EQ, token.LT, token.LT_EQ, token.GT, token.GT_EQ,
   token.AND, token.OR, token.IN]

/-- Fallback token used past the end of the stream; every stream built by
`tokenize` ends with a real EOF token, so this is reached only past that
token and its payload is never inspected by the proofs. -/
def eofFallback : Token :=
  { type := token.EOF, literal := "", location := "" }

/-- Parser state: token stream, current position, error list. -/
structure ParserState where
  toks : List Token
  pos : Nat
  errors : List String
deriving Repr

namespace ParserState

/-- The current token. -/
def curToken (st : ParserState) : Token :=
  st.toks.getD st.pos eofFallback

/-- The peek (one-ahead) token. -/
def peekToken (st : ParserState) : Token :=
  st.toks.getD (st.pos + 1) eofFallback

/-- curTokenIs of parser.go. -/
def curTokenIs (st : ParserState) (t : TokenType) : Bool :=
  st.curToken.type == t

/-- peekTokenIs of parser.go. -/
def peekTokenIs (st : ParserState) (t : TokenType) : Bool :=
  st.peekToken.type == t

/-- Precedence of the current token, LOWEST when unlisted. -/
def curPrecedence (st : ParserState) : Nat :=
  match precedenceMap.find? (fun p => p.fst == st.curToken.type) with
  | some p => p.snd
  | none => LOWEST

/-- Precedence of the peek token, LOWEST when unlisted. -/
def peekPrecedence (st : ParserState) : Nat :=
  match precedenceMap.find? (fun p => p.fst == st.peekToken.type) with
  | some p => p.snd
  | none => LOWEST

/-- scanToken: advances the cursor. -/
def scanToken (st : ParserState) : ParserState :=
  { st with pos := st.pos + 1 }

/-- Appends a parse error message. -/
def addError (message : String) (st : ParserState) : ParserState :=
  { st with errors := st.errors ++ [message] }

/-- peekError of parser.go. -/
def peekError (expectedType : TokenType) (st : ParserState) : ParserState :=
  st.addError ("Expected next token to be " ++ expectedType ++ ", got "
    ++ st.peekToken.type ++ " instead at " ++ st.peekToken.location)

/-- expectPeek: advances when the peek token matches, otherwise records a
peek error. -/
def expectPeek (expectedType : TokenType) (st : ParserState) : Bool × ParserState :=
  if st.peekTokenIs expectedType then (true, st.scanToken)
  else (false, st.peekError expectedType)

end ParserState

/-- parseIdentifier of parser.go. -/
def parseIdentifier (st : ParserState) : Option Expr × ParserState :=
  (some (.identifier st.curToken.literal st.curToken.location), st)

/-- parseIntegerLiteral: converts via strconv.Atoi, recording an error on
failure. -/
def parseIntegerLiteral (st : ParserState) : Option Expr × ParserState :=
  match atoi? st.curToken.literal with
  | some value => (some (.integerLiteral value st.curToken.literal), st)
  | none => (none, st.addError ("Could not parse \"" ++ st.curToken.literal
      ++ "\" as integer at " ++ st.curToken.location))

/-- parseFloatLiteral: converts via strconv.ParseFloat, recording an
error on failure. -/
def parseFloatLiteral (st : ParserState) : Option Expr × ParserState :=
  match parseGoFloat? st.curToken.literal with
  | some value => (some (.floatLiteral value st.curToken.literal), st)
  | none => (none, st.addError ("Could not parse \"" ++ st.curToken.literal
      ++ "\" as float at " ++ st.curToken.location))

/-- parseStringLiteral of parser.go. -/
def parseStringLiteral (st : ParserState) : Option Expr × ParserState :=
  (some (.stringLiteral st.curToken.literal), st)

/-- parseBooleanLiteral of parser.go. -/
def parseBooleanLiteral (st : ParserState) : Option Expr × ParserState :=
  (some (.booleanLiteral (st.curTokenIs token.TRUE) st.curToken.literal), st)

/-- parseBreakStatement of parser.go. -/
def parseBreakStatement (st : ParserState) : Option Stmt × ParserState :=
  let st := if st.peekTokenIs token.SEMICOLON then st.scanToken else st
  (some .breakStatement, st)

/-- parseContinueStatement of parser.go. -/
def parseContinueStatement (st : ParserState) : Option Stmt × ParserState :=
  let st := if st.peekTokenIs token.SEMICOLON then st.scanToken else st
  (some .continueStatement, st)

/-- Comma loop of parseFunctionParameters; a failed terminating
expectPeek makes Go return a nil slice, observationally equal to the
empty list at every use site (ranging and rendering). -/
def parseFunctionParametersLoop : Nat → List String → ParserState
    → List String × ParserState
  | 0, _, st => ([], st)
  | fuel + 1, acc, st =>
      if st.peekTokenIs token.COMMA then
        let st := st.scanToken.scanToken
        parseFunctionParametersLoop fuel (acc ++ [st.curToken.literal]) st
      else
        let (ok, st) := st.expectPeek token.R_PAREN
        if ok then (acc, st) else ([], st)

/-- parseFunctionParameters of parser.go. -/
def parseFunctionParameters (st : ParserState) : List String × ParserState :=
  if st.peekTokenIs token.R_PAREN then ([], st.scanToken)
  else
    let st := st.scanToken
    parseFunctionParametersLoop (st.toks.length + 1) [st.curToken.literal] st

/-- Wraps a typed-nil statement pointer returned by a statement
sub-parser: Go appends it to the program as a non-nil interface value. -/
def orFailed (r : Option Stmt) : Option Stmt :=
  some (r.getD .failedStatement)

mutual

/-- parseStatement: dispatch on the current token type.  A comment
parses to a genuine nil statement (skipped by the callers); a failed
let/return/for/while/try parse yields Go's typed-nil interface value,
here the failedStatement marker. -/
def parseStatement : Nat → ParserState → Option Stmt × ParserState
  | 0, st => (none, st)
  | fuel + 1, st =>
      let t := st.curToken.type
      if t == token.O_COMMENT then (none, parseComment fuel st)
      else if t == token.LET then
        let (r, st) := parseLetStatement fuel st
        (orFailed r, st)
      else if t == token.RETURN then
        let (r, st) := parseReturnStatement fuel st
        (orFailed r, st)
      else if t == token.FOR then
        let (r, st) := parseForStatement fuel st
        (orFailed r, st)
      else if t == token.WHILE then
        let (r, st) := parseWhileStatement fuel st
        (orFailed r, st)
      else if t == token.BREAK then parseBreakStatement st
      else if t == token.CONTINUE then parseContinueStatement st
      else if t == token.TRY then
        let (r, st) := parseTryStatement fuel st
        (orFailed r, st)
      else parseExpressionStatement fuel st

/-- parseComment: skips tokens to the comment close marker or EOF. -/
def parseComment : Nat → ParserState → ParserState
  | 0, st => st
  | fuel + 1, st =>
      if !st.curTokenIs token.C_COMMENT && !st.curTokenIs token.EOF then
        parseComment fuel st.scanToken
      else st

/-- parseLetStatement of parser.go. -/
def parseLetStatement : Nat → ParserState → Option Stmt × ParserState
  | 0, st => (none, st)
  | fuel + 1, st =>
      let (ok, st) := st.expectPeek token.IDENTIFIER
      if !ok then (none, st) else
      let name := st.curToken.literal
      let (ok, st) := st.expectPeek token.ASSIGN
      if !ok then (none, st) else
      let st := st.scanToken
      let (value, st) := parseExpression fuel LOWEST st
      let st := if st.peekTokenIs token.SEMICOLON then st.scanToken else st
      (some (.letStatement name value), st)

/-- parseReturnStatement of parser.go. -/
def parseReturnStatement : Nat → ParserState → Option Stmt × ParserState
  | 0, st => (none, st)
  | fuel + 1, st =>
      let st := st.scanToken
      let (value, st) := parseExpression fuel LOWEST st
      let st := if st.peekTokenIs token.SEMICOLON then st.scanToken else st
      (some (.returnStatement value), st)

/-- parseExpressionStatement of parser.go. -/
def parseExpressionStatement : Nat → ParserState → Option Stmt × ParserState
  | 0, st => (none, st)
  | fuel + 1, st =>
      let (e, st) := parseExpression fuel LOWEST st
      let st := if st.peekTokenIs token.SEMICOLON then st.scanToken else st
      (some (.expressionStatement e), st)

/-- Statement loop of parseBlockStatement. -/
def parseBlockLoop : Nat → List Stmt → ParserState → List Stmt × ParserState
  | 0, acc, st => (acc, st)
  | fuel + 1, acc, st =>
      if !st.curTokenIs token.R_BRACE && !st.curTokenIs token.EOF then
        let (stmt, st) := parseStatement fuel st
        let acc := match stmt with
          | some s => acc ++ [s]
          | none => acc
        parseBlockLoop fuel acc st.scanToken
      else (acc, st)

/-- parseBlockStatement: statements up to the closing brace; reaching
EOF first yields Go's nil block. -/
def parseBlockStatement : Nat → ParserState → Option (List Stmt) × ParserState
  | 0, st => (none, st)
  | fuel + 1, st =>
      let st := st.scanToken
      let (acc, st) := parseBlockLoop fuel [] st
      if !st.curTokenIs token.R_BRACE then (none, st) else (some acc, st)

/-- parseForStatement of parser.go (parentheses around the header are
optional). -/
def parseForStatement : Nat → ParserState → Option Stmt × ParserState
  | 0, st => (none, st)
  | fuel + 1, st =>
      let hashParentheses := st.peekTokenIs token.L_PAREN
      let st := if hashParentheses then st.scanToken else st
      let (ok, st) := st.expectPeek token.IDENTIFIER
      if !ok then (none, st) else
      let element := st.curToken
      let (ok, st) := st.expectPeek token.IN
      if !ok then (none, st) else
      let st := st.scanToken
      let (iterator, st) := parseExpression fuel LOWEST st
      let (ok, st) :=
        if hashParentheses then st.expectPeek token.R_PAREN else (true, st)
      if !ok then (none, st) else
      let (ok, st) := st.expectPeek token.L_BRACE
      if !ok then (none, st) else
      let (body, st) := parseBlockStatement fuel st
      (some (.forStatement element.literal element.location iterator body), st)

/-- parseWhileStatement of parser.go. -/
def parseWhileStatement : Nat → ParserState → Option Stmt × ParserState
  | 0, st => (none, st)
  | fuel + 1, st =>
      let hashParentheses := st.peekTokenIs token.L_PAREN
      let st := if hashParentheses then st.scanToken else st
      let st := st.scanToken
      let (condition, st) := parseExpression fuel LOWEST st
      let (ok, st) :=
        if hashParentheses then st.expectPeek token.R_PAREN else (true, st)
      if !ok then (none, st) else
      let (ok, st) := st.expectPeek token.L_BRACE
      if !ok then (none, st) else
      let (body, st) := parseBlockStatement fuel st
      (some (.whileStatement condition body), st)

/-- parseTryStatement of parser.go (parentheses around the caught error
and the finally block are optional). -/
def parseTryStatement : Nat → ParserState → Option Stmt × ParserState
  | 0, st => (none, st)
  | fuel + 1, st =>
      let (ok, st) := st.expectPeek token.L_BRACE
      if !ok then (none, st) else
      let (tryBlock, st) := parseBlockStatement fuel st
      let (ok, st) := st.expectPeek token.CATCH
      if !ok then (none, st) else
      let hashParentheses := st.peekTokenIs token.L_PAREN
      let st := if hashParentheses then st.scanToken else st
      let (ok, st) := st.expectPeek token.IDENTIFIER
      if !ok then (none, st) else
      let errTok := st.curToken
      let (ok, st) :=
        if hashParentheses then st.expectPeek token.R_PAREN else (true, st)
      if !ok then (none, st) else
      let (ok, st) := st.expectPeek token.L_BRACE
      if !ok then (none, st) else
      let (catchBlock, st) := parseBlockStatement fuel st
      if st.peekTokenIs token.FINALLY then
        let st := st.scanToken
        let (ok, st) := st.expectPeek token.L_BRACE
        if !ok then (none, st) else
        let (finallyBlock, st) := parseBlockStatement fuel st
        (some (.tryStatement tryBlock errTok.literal errTok.location
          catchBlock finallyBlock), st)
      else
        (some (.tryStatement tryBlock errTok.literal errTok.location
          catchBlock none), st)

/-- parseExpression: Pratt parsing.  The prefix rule for the current
token type runs first (an unregistered type records a "no prefix parse
function" error, or the dedicated message for ILLEGAL tokens, and yields
a nil expression); then infix rules apply while the peek token is not a
semicolon and binds strictly tighter than the threshold. -/
def parseExpression : Nat → Nat → ParserState → Option Expr × ParserState
  | 0, _, st => (none, st)
  | fuel + 1, precedence, st =>
      let t := st.curToken.type
      let (leftExpression, st) :=
        if t == token.IDENTIFIER then parseIdentifier st
        else if t == token.INTEGER then parseIntegerLiteral st
        else if t == token.FLOAT then parseFloatLiteral st
        else if t == token.STRING then parseStringLiteral st
        else if t == token.TRUE || t == token.FALSE then parseBooleanLiteral st
        else if t == token.FUNCTION then parseFunctionLiteral fuel st
        else if t == token.L_BRACKET then parseArrayLiteral fuel st
        else if t == token.L_BRACE then parseHashLiteral fuel st
        else if t == token.MINUS || t == token.BANG then
          parsePrefixExpression fuel st
        else if t == token.L_PAREN then parseGroupedExpression fuel st
        else if t == token.IF then parseIfExpression fuel st
        else if t == token.ILLEGAL then
          (none, st.addError ("Illegal token: " ++ st.curToken.literal
            ++ " at " ++ st.curToken.location))
        else
          (none, st.addError ("No prefix parse function registered for " ++ t
            ++ " at " ++ st.curToken.location))
      parsePrattLoop fuel precedence leftExpression st

/-- The infix loop of parseExpression; an unregistered peek token type
returns the accumulated expression without advancing. -/
def parsePrattLoop : Nat → Nat → Option Expr → ParserState
    → Option Expr × ParserState
  | 0, _, leftExpression, st => (leftExpression, st)
  | fuel + 1, precedence, leftExpression, st =>
      if !st.peekTokenIs token.SEMICOLON && st.peekPrecedence > precedence then
        let t := st.peekToken.type
        if infixOperatorTokens.contains t then
          let st := st.scanToken
          let (leftExpression, st) := parseInfixExpression fuel leftExpression st
          parsePrattLoop fuel precedence leftExpression st
        else if t == token.L_PAREN then
          let st := st.scanToken
          let (leftExpression, st) := parseCallExpression fuel leftExpression st
          parsePrattLoop fuel precedence leftExpression st
        else if t == token.L_BRACKET then
          let st := st.scanToken
          let (leftExpression, st) := parseIndexExpression fuel leftExpression st
          parsePrattLoop fuel precedence leftExpression st
        else if t == token.ASSIGN then
          let st := st.scanToken
          let (leftExpression, st) := parseAssignExpression fuel leftExpression st
          parsePrattLoop fuel precedence leftExpression st
        else (leftExpression, st)
      else (leftExpression, st)

/-- parsePrefixExpression of parser.go. -/
def parsePrefixExpression : Nat → ParserState → Option Expr × ParserState
  | 0, st => (none, st)
  | fuel + 1, st =>
      let op := st.curToken.literal
      let st := st.scanToken
      let (right, st) := parseExpression fuel PREFIX st
      (some (.prefixExpression op right), st)

/-- parseInfixExpression: left associativity comes from reusing the
operator's own precedence as the recursive threshold. -/
def parseInfixExpression : Nat → Option Expr → ParserState
    → Option Expr × ParserState
  | 0, leftExpression, st => (leftExpression, st)
  | fuel + 1, leftExpression, st =>
      let op := st.curToken.literal
      let precedence := st.curPrecedence
      let st := st.scanToken
      let (right, st) := parseExpression fuel precedence st
      (some (.infixExpression leftExpression op right), st)

/-- parseGroupedExpression of parser.go. -/
def parseGroupedExpression : Nat → ParserState → Option Expr × ParserState
  | 0, st => (none, st)
  | fuel + 1, st =>
      let st := st.scanToken
      let (groupedExpression, st) := parseExpression fuel LOWEST st
      let (ok, st) := st.expectPeek token.R_PAREN
      if !ok then (none, st) else (groupedExpression, st)

/-- parseCallExpression of parser.go. -/
def parseCallExpression : Nat → Option Expr → ParserState
    → Option Expr × ParserState
  | 0, _, st => (none, st)
  | fuel + 1, function, st =>
      let (arguments, st) := parseExpressionList fuel token.R_PAREN st
      (some (.callExpression function arguments), st)

/-- parseIfExpression of parser.go (parentheses around the condition and
the else part are optional). -/
def parseIfExpression : Nat → ParserState → Option Expr × ParserState
  | 0, st => (none, st)
  | fuel + 1, st =>
      let hashParentheses := st.peekTokenIs token.L_PAREN
      let st := if hashParentheses then st.scanToken else st
      let st := st.scanToken
      let (condition, st) := parseExpression fuel LOWEST st
      let (ok, st) :=
        if hashParentheses then st.expectPeek token.R_PAREN else (true, st)
      if !ok then (none, st) else
      let (ok, st) := st.expectPeek token.L_BRACE
      if !ok then (none, st) else
      let (consequence, st) := parseBlockStatement fuel st
      if st.peekTokenIs token.ELSE then
        let st := st.scanToken
        let (ok, st) := st.expectPeek token.L_BRACE
        if !ok then (none, st) else
        let (alternate, st) := parseBlockStatement fuel st
        (some (.ifExpression condition consequence alternate), st)
      else (some (.ifExpression condition consequence none), st)

/-- parseFunctionLiteral of parser.go (the parser never assigns the
optional Name field, so the rendering has no name prefix). -/
def parseFunctionLiteral : Nat → ParserState → Option Expr × ParserState
  | 0, st => (none, st)
  | fuel + 1, st =>
      let (ok, st) := st.expectPeek token.L_PAREN
      if !ok then (none, st) else
      let (parameters, st) := parseFunctionParameters st
      let (ok, st) := st.expectPeek token.L_BRACE
      if !ok then (none, st) else
      let (body, st) := parseBlockStatement fuel st
      (some (.functionLiteral parameters body), st)

/-- parseArrayLiteral of parser.go. -/
def parseArrayLiteral : Nat → ParserState → Option Expr × ParserState
  | 0, st => (none, st)
  | fuel + 1, st =>
      let (elements, st) := parseExpressionList fuel token.R_BRACKET st
      (some (.arrayLiteral elements), st)

/-- Pair loop of parseHashLiteral; Go's map of AST expressions keyed by
freshly allocated nodes is an insertion-ordered association list here
(all keys are distinct allocations). -/
def parseHashPairsLoop : Nat → List (Option Expr × Option Expr) → ParserState
    → Option Expr × ParserState
  | 0, _, st => (none, st)
  | fuel + 1, acc, st =>
      if !st.peekTokenIs token.R_BRACE then
        let st := st.scanToken
        let (key, st) := parseExpression fuel LOWEST st
        let (ok, st) := st.expectPeek token.COLON
        if !ok then (none, st) else
        let st := st.scanToken
        let (value, st) := parseExpression fuel LOWEST st
        let acc := acc ++ [(key, value)]
        if !st.peekTokenIs token.R_BRACE then
          let (ok, st) := st.expectPeek token.COMMA
          if !ok then (none, st) else parseHashPairsLoop fuel acc st
        else parseHashPairsLoop fuel acc st
      else
        let (ok, st) := st.expectPeek token.R_BRACE
        if !ok then (none, st) else (some (.hashLiteral acc), st)

/-- parseHashLiteral of parser.go. -/
def parseHashLiteral : Nat → ParserState → Option Expr × ParserState
  | 0, st => (none, st)
  | fuel + 1, st => parseHashPairsLoop fuel [] st

/-- parseIndexExpression of parser.go. -/
def parseIndexExpression : Nat → Option Expr → ParserState
    → Option Expr × ParserState
  | 0, _, st => (none, st)
  | fuel + 1, array, st =>
      let st := st.scanToken
      let (index, st) := parseExpression fuel LOWEST st
      let (ok, st) := st.expectPeek token.R_BRACKET
      if !ok then (none, st) else (some (.indexExpression array index), st)

/-- parseAssignExpression: legal only when the left operand is a bare
identifier; any other left operand records the parse error and yields a
nil expression (no assignment node). -/
def parseAssignExpression : Nat → Option Expr → ParserState
    → Option Expr × ParserState
  | 0, _, st => (none, st)
  | fuel + 1, identifier, st =>
      match identifier with
      | some (.identifier v loc) =>
          let st := st.scanToken
          let (value, st) := parseExpression fuel LOWEST st
          (some (.assignExpression v loc value), st)
      | _ => (none, st.addError "Cannot assign value to a non-identifier")

/-- Element loop of parseExpressionList; as with parameter lists, the
nil slice Go returns on a failed terminator is the empty list here. -/
def parseExpressionListLoop : Nat → TokenType → List (Option Expr) → ParserState
    → List (Option Expr) × ParserState
  | 0, _, _, st => ([], st)
  | fuel + 1, endToken, acc, st =>
      if st.peekTokenIs token.COMMA then
        let st := st.scanToken.scanToken
        let (e, st) := parseExpression fuel LOWEST st
        parseExpressionListLoop fuel endToken (acc ++ [e]) st
      else
        let (ok, st) := st.expectPeek endToken
        if ok then (acc, st) else ([], st)

/-- parseExpressionList of parser.go. -/
def parseExpressionList : Nat → TokenType → ParserState
    → List (Option Expr) × ParserState
  | 0, _, st => ([], st)
  | fuel + 1, endToken, st =>
      if st.peekTokenIs endToken then ([], st.scanToken)
      else
        let st := st.scanToken
        let (e, st) := parseExpression fuel LOWEST st
        parseExpressionListLoop fuel endToken [e] st

end

/-- Statement loop of ParseProgram. -/
def parseProgramLoop : Nat → List Stmt → ParserState → List Stmt × ParserState
  | 0, acc, st => (acc, st)
  | fuel + 1, acc, st =>
      if st.curToken.type != token.EOF then
        let (stmt, st) := parseStatement fuel st
        let acc := match stmt with
          | some s => acc ++ [s]
          | none => acc
        parseProgramLoop fuel acc st.scanToken
      else (acc, st)

/-- ParseProgram of parser.go: parses statements until EOF. -/
def ParseProgram (fuel : Nat) (st : ParserState) : Program × ParserState :=
  let (stmts, st) := parseProgramLoop fuel [] st
  ({ statements := stmts }, st)

/-- Parses a token stream from position 0 with an empty error list,
returning the program and the collected errors.  The fuel is generous
for the stream length; every parsed result proved below certifies its
sufficiency on that input. -/
def parseTokens (toks : List Token) : Program × List String :=
  let (program, st) := ParseProgram ((toks.length + 2) * 40)
    { toks := toks, pos := 0, errors := [] }
  (program, st.errors)

/-- The front end pipeline source → tokens → (program, errors). -/
def parseSource (source : String) : Program × List String :=
  parseTokens (tokenize source)

/-! ## Runtime objects (object/object.go)

The current object file (with the Integer/Float split the evaluator
uses) is not under src/; src/ holds the earlier Number-based object
file.  Everything below follows the evaluator's usage, the Number-based
file's patterns (type-tagged hash keys, uint64 casts, FNV string
hashing) and, where marked, the spec.  Reference identity of Go
pointers is an allocation id carried by array, hash and function
values; booleans and null are the shared singletons TRUE/FALSE/NULL of
the evaluator, whose pointer identity coincides with value identity. -/

/-- Object type tags (the *_OBJ constants).  INTEGER and FLOAT name the
two numeric kinds the evaluator dispatches on; BREAK/CONTINUE tag the
loop signal values modelled from the spec (§9). -/
def INTEGER_OBJ : String := "INTEGER"
def FLOAT_OBJ : String := "FLOAT"
def STRING_OBJ : String := "STRING"
def BOOLEAN_OBJ : String := "BOOLEAN"
def ARRAY_OBJ : String := "ARRAY"
def HASH_OBJ : String := "HASH"
def NULL_OBJ : String := "NULL"
def RETURN_OBJ : String := "RETURN_VALUE"
def FUNCTION_OBJ : String := "FUNCTION"
def ERROR_OBJ : String := "ERROR"
def BUILTIN_OBJ : String := "BUILTIN"

/-- Modelled from the spec: type tag of the loop-break signal value
(§9 asks for dedicated signal values analogous to ReturnSignal,
distinct from Error). -/
def BREAK_OBJ : String := "BREAK_SIGNAL"

/-- Modelled from the spec: type tag of the loop-continue signal value. -/
def CONTINUE_OBJ : String := "CONTINUE_SIGNAL"

/-- A hash key: the value's type tag and a 64-bit hash (HashKey). -/
structure HashKey where
  type : String
  value : Nat
deriving DecidableEq, BEq, Repr

/-- Runtime values.  Array elements, hash pair values and the wrapped
return value are possibly-nil Go interface values (`Option Object`);
hash pair keys are always real objects (a nil key panics before
insertion). -/
inductive Object where
  | integer (value : Int)
  | float (value : GoFloat)
  | str (value : String)
  | boolean (value : Bool)
  | null
  | array (id : Nat) (elements : List (Option Object))
  | hash (id : Nat) (pairs : List (HashKey × Object × Option Object))
  | returnValue (value : Option Object)
  | error (message : String)
  | function (id : Nat) (parameters : List String) (body : Option (List Stmt))
      (env : Nat)
  | builtin (name : String)
  | breakSignal
  | continueSignal

/-- A Go `object.Object` interface value, possibly nil. -/
abbrev GoV := Option Object

/-- The Type() method: the object's type tag. -/
def Object.typeTag : Object → String
  | .integer _ => INTEGER_OBJ
  | .float _ => FLOAT_OBJ
  | .str _ => STRING_OBJ
  | .boolean _ => BOOLEAN_OBJ
  | .null => NULL_OBJ
  | .array _ _ => ARRAY_OBJ
  | .hash _ _ => HASH_OBJ
  | .returnValue _ => RETURN_OBJ
  | .error _ => ERROR_OBJ
  | .function _ _ _ _ => FUNCTION_OBJ
  | .builtin _ => BUILTIN_OBJ
  | .breakSignal => BREAK_OBJ
  | .continueSignal => CONTINUE_OBJ

/-- The shared TRUE singleton. -/
def TRUE : Object := .boolean true

/-- The shared FALSE singleton. -/
def FALSE : Object := .boolean false

/-- The shared NULL singleton. -/
def NULL : Object := .null

/-- nativeToBooleanObject: booleans are the two shared singletons. -/
def nativeToBooleanObject (value : Bool) : Object :=
  if value then TRUE else FALSE

/-- isError of the evaluator: non-nil and tagged ERROR. -/
def isError : GoV → Bool
  | some (.error _) => true
  | _ => false

/-- isTrue of the evaluator (truthiness): booleans by value, numbers by
being nonzero, strings/arrays/hashes by being non-empty, everything
else (including nil) false. -/
def isTrue : GoV → Bool
  | some (.boolean b) => b
  | some (.integer v) => v != 0
  | some (.float v) => v.num != 0
  | some (.str s) => goStrLen s > 0
  | some (.array _ elements) => elements.length > 0
  | some (.hash _ pairs) => pairs.length > 0
  | _ => false

/-- Modelled from the spec: the 64-bit hash payload of a float hash key
(the spec requires hashable values to expose a canonical {kind, 64-bit
hash} pair; the Float HashKey method is in the object file missing from
src/).  Any deterministic function of the numeric value realizes it. -/
def floatHashPayload (q : GoFloat) : Nat :=
  (u64ofInt (mkRat q.num q.den.toNat).num + 2654435761 * (mkRat q.num q.den.toNat).den) % 2 ^ 64

/-- The Hashable protocol (HashKey methods): integers cast to uint64
with their INTEGER tag (the pattern of Number.HashKey in src/),
booleans map to 1/0 with their tag, strings take the FNV-1a hash of
their bytes with their tag, floats their modelled payload with their
FLOAT tag; every other kind is not hashable. -/
def hashKey? : Object → Option HashKey
  | .integer v => some { type := INTEGER_OBJ, value := u64ofInt v }
  | .float q => some { type := FLOAT_OBJ, value := floatHashPayload q }
  | .str s => some { type := STRING_OBJ, value := fnv64a (goBytes s) }
  | .boolean b => some { type := BOOLEAN_OBJ, value := if b then 1 else 0 }
  | _ => none

/-- Go interface equality `leftOperand == rightOperand` as reached by
the identity fallback of evalInfixOperation (both-numeric and
both-string pairs are handled before it).  Different dynamic types
compare unequal; booleans, null and the modelled loop signals are
shared singletons, so pointer identity is value identity; arrays,
hashes and functions compare by allocation id.  Numeric, string, error
and return-value pairs cannot reach this fallback from the evaluator
(numerics and strings are dispatched earlier, errors short-circuit and
return wrappers are unwrapped); Go would compare their pointers, and
the false returned here for them is never relied on by a theorem. -/
def identityEq : Object → Object → Bool
  | .boolean a, .boolean b => a == b
  | .null, .null => true
  | .array i _, .array j _ => i == j
  | .hash i _, .hash j _ => i == j
  | .function i _ _ _, .function j _ _ _ => i == j
  | .builtin n, .builtin m => n == m
  | .breakSignal, .breakSignal => true
  | .continueSignal, .continueSignal => true
  | _, _ => false

/-- Go truncating division of 64-bit ints (the quotient wraps, so the
most negative value divided by -1 yields itself, as the Go spec
prescribes); the zero-divisor case is handled by the caller. -/
def goIntDiv (l r : Int) : Int :=
  wrap64 (Int.tdiv l r)

/-- evalIntOperation: arithmetic and comparisons on two INTEGER
operands.  Go's `/` panics on a zero divisor (there is no zero check in
the source), modelled as `none`; all arithmetic wraps as 64-bit. -/
def evalIntOperation (l : Int) (op : String) (r : Int) : Option Object :=
  if op == token.PLUS then some (.integer (wrap64 (l + r)))
  else if op == token.MINUS then some (.integer (wrap64 (l - r)))
  else if op == token.ASTERISK then some (.integer (wrap64 (l * r)))
  else if op == token.SLASH then
    if r == 0 then none else some (.integer (goIntDiv l r))
  else if op == token.EQ then some (nativeToBooleanObject (l == r))
  else if op == token.NOT_EQ then some (nativeToBooleanObject (l != r))
  else if op == token.LT then some (nativeToBooleanObject (decide (l < r)))
  else if op == token.LT_EQ then some (nativeToBooleanObject (decide (l ≤ r)))
  else if op == token.GT then some (nativeToBooleanObject (decide (r < l)))
  else if op == token.GT_EQ then some (nativeToBooleanObject (decide (r ≤ l)))
  else some (.error ("Unknown operator: " ++ INTEGER_OBJ ++ " " ++ op ++ " " ++ INTEGER_OBJ))

/-- evalFloatOperation: arithmetic and comparisons on two FLOAT
operands.  Division is exact in the rational model (Go float64 division
never panics; at a zero divisor Go produces an infinity or NaN while
the rational model yields 0 — no theorem relies on that value). -/
def evalFloatOperation (l : GoFloat) (op : String) (r : GoFloat) : Option Object :=
  if op == token.PLUS then some (.float (fAdd l r))
  else if op == token.MINUS then some (.float (fSub l r))
  else if op == token.ASTERISK then some (.float (fMul l r))
  else if op == token.SLASH then some (.float (fDiv l r))
  else if op == token.EQ then some (nativeToBooleanObject (fEqB l r))
  else if op == token.NOT_EQ then some (nativeToBooleanObject (!fEqB l r))
  else if op == token.LT then some (nativeToBooleanObject (fLtB l r))
  else if op == token.LT_EQ then some (nativeToBooleanObject (fLeB l r))
  else if op == token.GT then some (nativeToBooleanObject (fLtB r l))
  else if op == token.GT_EQ then some (nativeToBooleanObject (fLeB r l))
  else some (.error ("Unknown operator: " ++ FLOAT_OBJ ++ " " ++ op ++ " " ++ FLOAT_OBJ))

/-- evalIntFloatOperation: the INTEGER left operand is converted to
float64 (exact in the rational model) and the float operation applies;
the error tag pair is INTEGER op FLOAT as in the source. -/
def evalIntFloatOperation (l : Int) (op : String) (r : GoFloat) : Option Object :=
  if op == token.PLUS then some (.float (fAdd (fofInt l) r))
  else if op == token.MINUS then some (.float (fSub (fofInt l) r))
  else if op == token.ASTERISK then some (.float (fMul (fofInt l) r))
  else if op == token.SLASH then some (.float (fDiv (fofInt l) r))
  else if op == token.EQ then some (nativeToBooleanObject (fEqB (fofInt l) r))
  else if op == token.NOT_EQ then some (nativeToBooleanObject (!fEqB (fofInt l) r))
  else if op == token.LT then some (nativeToBooleanObject (fLtB (fofInt l) r))
  else if op == token.LT_EQ then some (nativeToBooleanObject (fLeB (fofInt l) r))
  else if op == token.GT then some (nativeToBooleanObject (fLtB r (fofInt l)))
  else if op == token.GT_EQ then some (nativeToBooleanObject (fLeB r (fofInt l)))
  else some (.error ("Unknown operator: " ++ INTEGER_OBJ ++ " " ++ op ++ " " ++ FLOAT_OBJ))

/-- evalFloatIntOperation: the INTEGER right operand is converted to
float64 and the float operation applies. -/
def evalFloatIntOperation (l : GoFloat) (op : String) (r : Int) : Option Object :=
  if op == token.PLUS then some (.float (fAdd l (fofInt r)))
  else if op == token.MINUS then some (.float (fSub l (fofInt r)))
  else if op == token.ASTERISK then some (.float (fMul l (fofInt r)))
  else if op == token.SLASH then some (.float (fDiv l (fofInt r)))
  else if op == token.EQ then some (nativeToBooleanObject (fEqB l (fofInt r)))
  else if op == token.NOT_EQ then some (nativeToBooleanObject (!fEqB l (fofInt r)))
  else if op == token.LT then some (nativeToBooleanObject (fLtB l (fofInt r)))
  else if op == token.LT_EQ then some (nativeToBooleanObject (fLeB l (fofInt r)))
  else if op == token.GT then some (nativeToBooleanObject (fLtB (fofInt r) l))
  else if op == token.GT_EQ then some (nativeToBooleanObject (fLeB (fofInt r) l))
  else some (.error ("Unknown operator: " ++ FLOAT_OBJ ++ " " ++ op ++ " " ++ INTEGER_OBJ))

/-- evalStringOperation: concatenation and (in)equality on two STRING
operands; anything else is an unknown-operator error. -/
def evalStringOperation (l : String) (op : String) (r : String) : Option Object :=
  if op == token.PLUS then some (.str (l ++ r))
  else if op == token.EQ then some (nativeToBooleanObject (l == r))
  else if op == token.NOT_EQ then some (nativeToBooleanObject (l != r))
  else some (.error ("Unknown operator: " ++ STRING_OBJ ++ " " ++ op ++ " " ++ STRING_OBJ))

/-- evalArithmeticExpression: dispatch over the four numeric kind
combinations (the caller guarantees both operands are numeric, so the
four cases are exhaustive). -/
def evalArithmeticExpression (l : Object) (op : String) (r : Object) : Option Object :=
  match l, r with
  | .integer a, .integer b => evalIntOperation a op b
  | .float a, .float b => evalFloatOperation a op b
  | .integer a, .float b => evalIntFloatOperation a op b
  | .float a, .integer b => evalFloatIntOperation a op b
  | _, _ => none

/-- Whether an object carries one of the two numeric type tags (the
operand-kind guard of evalInfixOperation). -/
def isNumericTag (o : Object) : Bool :=
  o.typeTag == INTEGER_OBJ || o.typeTag == FLOAT_OBJ

/-- evalInfixOperation without the `in` case, in the source's case
order: eager boolean and/or; both-numeric pairs go to arithmetic;
both-string pairs to the string operation; `==`/`!=` fall back to
interface identity for every remaining pair; differing type tags are a
type mismatch; anything else is an unknown operator.  A nil operand
reaching a Type() call is a Go nil dereference (`none`). -/
def evalInfixOperationCore (left : GoV) (op : String) (right : GoV) : Option GoV :=
  if op == token.AND then
    some (some (nativeToBooleanObject (isTrue left && isTrue right)))
  else if op == token.OR then
    some (some (nativeToBooleanObject (isTrue left || isTrue right)))
  else
    match left, right with
    | some l, some r =>
        if isNumericTag l && isNumericTag r then
          (evalArithmeticExpression l op r).map some
        else if l.typeTag == STRING_OBJ && r.typeTag == STRING_OBJ then
          match l, r with
          | .str a, .str b => (evalStringOperation a op b).map some
          | _, _ => none
        else if op == token.EQ then
          some (some (nativeToBooleanObject (identityEq l r)))
        else if op == token.NOT_EQ then
          some (some (nativeToBooleanObject (!identityEq l r)))
        else if l.typeTag != r.typeTag then
          some (some (.error ("Type mismatch: " ++ l.typeTag ++ " " ++ op
            ++ " " ++ r.typeTag)))
        else
          some (some (.error ("Unknown operator: " ++ l.typeTag ++ " " ++ op
            ++ " " ++ r.typeTag)))
    | _, _ => none

/-- Iter of the Iterable protocol: strings expand to their one-character
strings per code point (Go ranges a string by rune), arrays to their
elements, hashes to their keys; other kinds are not iterable. -/
def iterElements : Object → Option (List GoV)
  | .str s => some (s.data.map fun c => some (.str (String.mk [c])))
  | .array _ elements => some elements
  | .hash _ pairs => some (pairs.map fun p => some p.snd.fst)
  | _ => none

/-- The element scan of evalInExpression: the source compares each
element with `evalInfixOperation(left, token.EQ, element) == TRUE`; the
EQ operator never reenters the `in` case, so the call is
evalInfixOperationCore specialized to EQ.  The scan stops at the first
match; comparing against a nil element panics inside the comparison. -/
def evalInScan (left : GoV) : List GoV → Option GoV
  | [] => some (some FALSE)
  | element :: rest =>
      match evalInfixOperationCore left token.EQ element with
      | none => none
      | some (some (.boolean true)) => some (some TRUE)
      | some _ => evalInScan left rest

/-- evalInExpression: hash membership via the hash-key protocol (a
non-hashable or nil left operand yields FALSE), linear scan for other
iterables, and an invalid-operand error for non-iterables (whose
message formats the right operand's type — a nil right operand is a
nil dereference). -/
def evalInExpression (left : GoV) (right : GoV) : Option GoV :=
  match right with
  | some (.hash _ pairs) =>
      match left with
      | some l =>
          match hashKey? l with
          | some k =>
              if (pairs.find? fun p => p.fst == k).isSome then some (some TRUE)
              else some (some FALSE)
          | none => some (some FALSE)
      | none => some (some FALSE)
  | some (.str s) => evalInScan left ((iterElements (.str s)).getD [])
  | some (.array i elements) => evalInScan left ((iterElements (.array i elements)).getD [])
  | some other => some (some (.error ("Invalid operand: in " ++ other.typeTag)))
  | none => none

/-- evalInfixOperation of the evaluator: the `in` case dispatches to
evalInExpression, every other operator to the core above (the and/or
cases appear before `in` in the source's switch; the operator strings
are disjoint, so the dispatch order is immaterial). -/
def evalInfixOperation (left : GoV) (op : String) (right : GoV) : Option GoV :=
  if op == token.IN then evalInExpression left right
  else evalInfixOperationCore left op right

/-- evalMinusExpression: negation of a numeric operand (wrapping for
integers), an invalid-operand error otherwise; a nil operand panics at
the Type() test. -/
def evalMinusExpression : GoV → Option GoV
  | some (.integer v) => some (some (.integer (wrap64 (-v))))
  | some (.float q) => some (some (.float (fNeg q)))
  | some other => some (some (.error ("Invalid operand: -" ++ other.typeTag)))
  | none => none

/-- evalBangExpression: truthiness negation, total. -/
def evalBangExpression (operand : GoV) : GoV :=
  some (nativeToBooleanObject (!isTrue operand))

/-- evalArrayIndexExpression: the element at the index, NULL when the
index is negative or past the last element (max = len-1). -/
def evalArrayIndexExpression (elements : List GoV) (idx : Int) : GoV :=
  if idx < 0 || idx > (elements.length : Int) - 1 then some NULL
  else elements.getD idx.toNat none

/-- evalStringIndexExpression: the byte at the index converted to a
one-character string (Go indexes strings by byte and converts the byte
value to a rune), NULL out of bounds. -/
def evalStringIndexExpression (s : String) (idx : Int) : GoV :=
  if idx < 0 || idx > (goStrLen s : Int) - 1 then some NULL
  else some (.str (String.mk [Char.ofNat ((goBytes s).getD idx.toNat 0)]))

/-- evalHashIndexExpression: hashes the index and looks the pair up,
NULL when absent; a non-hashable index is an error (a nil index panics
formatting its type in that error). -/
def evalHashIndexExpression (pairs : List (HashKey × Object × GoV)) (index : GoV)
    : Option GoV :=
  match index with
  | some i =>
      match hashKey? i with
      | some k =>
          match pairs.find? fun p => p.fst == k with
          | some p => some p.snd.snd
          | none => some (some NULL)
      | none => some (some (.error ("Key: " ++ i.typeTag ++ " cannot be hashed")))
  | none => none

/-! ## Environments (object/environment.go)

Environments live in a heap (`envs`), addressed by allocation index;
`outer` is the parent index.  A child is always allocated after its
parent, so indices strictly decrease along an outer chain and a walk
of the chain takes at most `envs.length` steps — the fuel passed by
the walk entry points. -/

/-- One environment record: its store and its optional parent. -/
structure EnvRec where
  store : List (String × GoV)
  outer : Option Nat

/-- Interpreter heap: all environments and the next allocation id for
reference-identity of arrays, hashes and functions. -/
structure EvalState where
  envs : List EnvRec
  nextId : Nat

/-- Lookup in one environment's store. -/
def storeGet (store : List (String × GoV)) (name : String) : Option GoV :=
  (store.find? fun p => p.fst == name).map fun p => p.snd

/-- Map write into one environment's store (replace or append). -/
def storeSet (store : List (String × GoV)) (name : String) (v : GoV)
    : List (String × GoV) :=
  match store with
  | [] => [(name, v)]
  | (n, w) :: rest =>
      if n == name then (n, v) :: rest else (n, w) :: storeSet rest name v

/-- In-place update of the heap record at an index. -/
def heapModify (envs : List EnvRec) (id : Nat) (f : EnvRec → EnvRec) : List EnvRec :=
  match envs, id with
  | [], _ => []
  | e :: rest, 0 => f e :: rest
  | e :: rest, i + 1 => e :: heapModify rest i f

/-- Environment.Set: writes the binding in the given environment. -/
def envSet (st : EvalState) (id : Nat) (name : String) (v : GoV) : EvalState :=
  { st with envs := heapModify st.envs id fun r => { r with store := storeSet r.store name v } }

/-- The chain walk of Environment.Get: the store of the environment,
then its outer chain. -/
def envGetAux : Nat → List EnvRec → Nat → String → Option GoV
  | 0, _, _, _ => none
  | fuel + 1, envs, id, name =>
      match envs.get? id with
      | none => none
      | some r =>
          match storeGet r.store name with
          | some v => some v
          | none =>
              match r.outer with
              | some oid => envGetAux fuel envs oid name
              | none => none

/-- Environment.Get: chain lookup from the given environment. -/
def envGet (st : EvalState) (id : Nat) (name : String) : Option GoV :=
  envGetAux (st.envs.length + 1) st.envs id name

/-- The chain walk of Environment.Update: updates the first environment
along the outer chain whose store defines the name; `none` when the
walk finds no defining environment. -/
def envUpdateAux : Nat → List EnvRec → Nat → String → GoV → Option (List EnvRec)
  | 0, _, _, _, _ => none
  | fuel + 1, envs, id, name, v =>
      match envs.get? id with
      | none => none
      | some r =>
          if (storeGet r.store name).isSome then
            some (heapModify envs id fun rc => { rc with store := storeSet rc.store name v })
          else
            match r.outer with
            | some oid => envUpdateAux fuel envs oid name v
            | none => none

/-- Environment.Update: mutates the nearest enclosing environment that
defines the name, falling back to a write in the current environment
when none does. -/
def envUpdate (st : EvalState) (id : Nat) (name : String) (v : GoV) : EvalState :=
  match envUpdateAux (st.envs.length + 1) st.envs id name v with
  | some envs2 => { st with envs := envs2 }
  | none => envSet st id name v

/-- NewEnvironment / NewEnclosedEnvironment: allocates a fresh empty
environment with the given parent and returns its index. -/
def allocEnv (st : EvalState) (outer : Option Nat) : Nat × EvalState :=
  (st.envs.length, { st with envs := st.envs ++ [{ store := [], outer := outer }] })

/-- Allocation of a fresh reference identity for an array, hash or
function value. -/
def allocId (st : EvalState) : Nat × EvalState :=
  (st.nextId, { st with nextId := st.nextId + 1 })

/-- The initial interpreter state: one root environment. -/
def initState : EvalState :=
  { envs := [{ store := [], outer := none }], nextId := 0 }

/-! ## Inspect and built-ins (object/object.go, evaluator/builtin.go) -/

mutual

/-- The Inspect() rendering of an object.  Integers print in decimal,
booleans as true/false, strings as their content, null as "null";
arrays and hashes render their parts (a nil element or pair value is a
nil dereference, `none`); errors carry the EVAL ERROR prefix; functions
print their header and body.  The float rendering stands in for Go's
%v formatting of float64 (the current object file is missing from
src/); no theorem inspects a float. -/
def inspect? : Object → Option String
  | .integer v => some (toString v)
  | .float q => some (toString q.num ++ "/" ++ toString q.den)
  | .str s => some s
  | .boolean b => some (if b then "true" else "false")
  | .null => some "null"
  | .array _ elements =>
      match inspectList elements with
      | some parts => some ("[" ++ joinComma parts ++ "]")
      | none => none
  | .hash _ pairs =>
      match inspectPairs pairs with
      | some parts => some ("\x7b" ++ joinComma parts ++ "\x7d")
      | none => none
  | .returnValue v => inspectV v
  | .error message => some ("EVAL ERROR: " ++ message)
  | .function _ parameters body _ =>
      match body with
      | some b => some ("fn(" ++ joinComma parameters ++ ")" ++ renderBlock 1000 b)
      | none => none
  | .builtin _ => some "Builtin function"
  | .breakSignal => some "break"
  | .continueSignal => some "continue"

/-- Inspect of a possibly-nil value (nil panics). -/
def inspectV : GoV → Option String
  | some o => inspect? o
  | none => none

/-- Inspects each element of a list, propagating a panic. -/
def inspectList : List GoV → Option (List String)
  | [] => some []
  | v :: rest =>
      match inspectV v, inspectList rest with
      | some s, some ss => some (s :: ss)
      | _, _ => none

/-- Inspects hash pairs as "key: value". -/
def inspectPairs : List (HashKey × Object × GoV) → Option (List String)
  | [] => some []
  | (_, k, v) :: rest =>
      match inspect? k, inspectV v, inspectPairs rest with
      | some ks, some vs, some ss => some ((ks ++ ": " ++ vs) :: ss)
      | _, _, _ => none

end

/-- The built-in catalog's names (the builtins map of builtin.go). -/
def builtinNames : List String :=
  ["print", "type", "str", "len", "reversed", "slice", "range", "lower",
   "upper", "split", "join", "push", "pop", "unshift", "shift", "keys",
   "values", "delete"]

/-- Arity-error message shared by the built-ins. -/
def wrongArgs (got : Nat) (want : String) : Object :=
  .error ("Wrong number of arguments. Got=" ++ toString got ++ " want=" ++ want)

/-- The min helper of builtin.go. -/
def intMin (num1 num2 : Int) : Int :=
  if num1 < num2 then num1 else num2

/-- The _len helper of builtin.go: byte length of a string, element
count of an array, 0 otherwise. -/
def lenOfIterable : Object → Nat
  | .str s => goStrLen s
  | .array _ elements => elements.length
  | _ => 0

/-- ASCII lowercase used by the lower built-in (strings.ToLower; the
programs proved about are ASCII). -/
def asciiLower (c : Char) : Char :=
  if 'A' ≤ c && c ≤ 'Z' then Char.ofNat (c.toNat + 32) else c

/-- ASCII uppercase used by the upper built-in. -/
def asciiUpper (c : Char) : Char :=
  if 'a' ≤ c && c ≤ 'z' then Char.ofNat (c.toNat - 32) else c

/-- Hash-pair list without the entries for a key (the delete loop). -/
def pairsWithout (pairs : List (HashKey × Object × GoV)) (k : HashKey)
    : List (HashKey × Object × GoV) :=
  pairs.filter fun p => p.fst != k

/-- Applies a built-in by name to its evaluated arguments; returns the
result and the updated state (fresh allocation ids for returned arrays
and hashes), `none` for a Go panic (nil dereference inside a built-in,
or the multibyte index mismatches noted below). -/
def applyBuiltin (name : String) (arguments : List GoV) (st : EvalState)
    : Option GoV × EvalState :=
  if name == "print" then
    -- prints its arguments and returns Go nil (the side effect is dropped)
    match inspectList arguments with
    | some _ => (some none, st)
    | none => (none, st)
  else if name == "type" then
    match arguments with
    | [some o] => (some (some (.str o.typeTag)), st)
    | [none] => (none, st)
    | _ => (some (some (wrongArgs arguments.length "1")), st)
  else if name == "str" then
    match arguments with
    | [a] =>
        match inspectV a with
        | some s => (some (some (.str s)), st)
        | none => (none, st)
    | _ => (some (some (wrongArgs arguments.length "1")), st)
  else if name == "len" then
    match arguments with
    | [some (.str s)] => (some (some (.integer (goStrLen s : Int))), st)
    | [some (.array _ elements)] => (some (some (.integer (elements.length : Int))), st)
    | [some (.hash _ pairs)] => (some (some (.integer (pairs.length : Int))), st)
    | [some o] =>
        (some (some (.error ("Cannot calculate len for argument of type " ++ o.typeTag))), st)
    | [none] => (none, st)
    | _ => (some (some (wrongArgs arguments.length "1")), st)
  else if name == "reversed" then
    match arguments with
    | [some (.str s)] =>
        -- the source swaps byte-length many rune positions; on a
        -- multibyte string the rune index overruns (a panic), on an
        -- ASCII string it reverses the characters
        if goStrLen s == s.data.length then
          (some (some (.str (String.mk s.data.reverse))), st)
        else (none, st)
    | [some (.array _ elements)] =>
        let (id, st) := allocId st
        (some (some (.array id elements.reverse)), st)
    | [some o] =>
        (some (some (.error ("Cannot reverse value for argument of type " ++ o.typeTag))), st)
    | [none] => (none, st)
    | _ => (some (some (wrongArgs arguments.length "1")), st)
  else if name == "slice" then
    match arguments with
    | [a, b, c] =>
        match a with
        | none => (none, st)
        | some o =>
            if o.typeTag != ARRAY_OBJ && o.typeTag != STRING_OBJ then
              (some (some (.error ("Cannot perform slice on argument of type " ++ o.typeTag))), st)
            else
              match b, c with
              | some (.integer start), some (.integer stop) =>
                  let length : Int := lenOfIterable o
                  let stop := intMin stop length
                  if 0 > start || start > length || start > stop then
                    (some (some (.error ("For slicing, (0 <= start < length) and (start <= end). Got start="
                      ++ toString start ++ ", end=" ++ toString stop))), st)
                  else
                    match o with
                    | .str s =>
                        -- the source slices the rune list with
                        -- byte-based bounds; past the rune count this
                        -- is a panic, on ASCII it is the substring
                        if stop.toNat ≤ s.data.length then
                          (some (some (.str (String.mk ((s.data.drop start.toNat).take (stop - start).toNat)))), st)
                        else (none, st)
                    | .array _ elements =>
                        let (id, st) := allocId st
                        (some (some (.array id ((elements.drop start.toNat).take (stop - start).toNat))), st)
                    | _ => (none, st)
              | some x, some y =>
                  (some (some (.error ("Start and End values should be INTEGERS. Got="
                    ++ x.typeTag ++ ", " ++ y.typeTag))), st)
              | _, _ => (none, st)
    | _ => (some (some (wrongArgs arguments.length "3")), st)
  else if name == "range" then
    match arguments with
    | [a, b] =>
        match a, b with
        | some (.integer start), some (.integer stop) =>
            if stop < start then
              (some (some (.error ("Need (end >= start). Got start=" ++ toString start
                ++ " end=" ++ toString stop))), st)
            else
              let (id, st) := allocId st
              (some (some (.array id ((List.range (stop - start).toNat).map
                fun i => some (.integer (start + i))))), st)
        | some x, some _ =>
            (some (some (.error ("Argument to range must be INTEGERS. Got " ++ x.typeTag))), st)
        | _, _ => (none, st)
    | _ => (some (some (wrongArgs arguments.length "2")), st)
  else if name == "lower" then
    match arguments with
    | [some (.str s)] => (some (some (.str (String.mk (s.data.map asciiLower)))), st)
    | [some o] =>
        (some (some (.error ("Argument to lower must be STRING. Got " ++ o.typeTag))), st)
    | [none] => (none, st)
    | _ => (some (some (wrongArgs arguments.length "1")), st)
  else if name == "upper" then
    match arguments with
    | [some (.str s)] => (some (some (.str (String.mk (s.data.map asciiUpper)))), st)
    | [some o] =>
        (some (some (.error ("Argument to upper must be STRING. Got " ++ o.typeTag))), st)
    | [none] => (none, st)
    | _ => (some (some (wrongArgs arguments.length "1")), st)
  else if name == "split" then
    match arguments with
    | [some (.str s)] =>
        let (id, st) := allocId st
        (some (some (.array id ((iterElements (.str s)).getD []))), st)
    | [some o] =>
        (some (some (.error ("Argument to split must be STRING. Got " ++ o.typeTag))), st)
    | [none] => (none, st)
    | _ => (some (some (wrongArgs arguments.length "1")), st)
  else if name == "join" then
    if arguments.length < 1 || arguments.length > 2 then
      (some (some (wrongArgs arguments.length "(min:1, max: 2)")), st)
    else
      match arguments.head? with
      | some (some (.array _ elements)) =>
          let sep? : Option String :=
            match arguments.get? 1 with
            | none => some ", "
            | some (some (.str s)) => some s
            | some _ => none
          match sep? with
          | none =>
              match arguments.get? 1, arguments.head? with
              | some (some _), some (some a0) =>
                  -- the separator-type error formats the FIRST argument's
                  -- type, as the source does
                  (some (some (.error ("Separator to join must be STRING. Got " ++ a0.typeTag))), st)
              | _, _ => (none, st)
          | some sep =>
              match inspectList elements with
              | some parts => (some (some (.str (String.intercalate sep parts))), st)
              | none => (none, st)
      | some (some o) =>
          (some (some (.error ("First argument to join must be ARRAY. Got " ++ o.typeTag))), st)
      | _ => (none, st)
  else if name == "push" then
    if arguments.length < 2 then (some (some (wrongArgs arguments.length "minimum 2")), st)
    else
      match arguments.head? with
      | some (some (.array _ elements)) =>
          let (id, st) := allocId st
          (some (some (.array id (elements ++ arguments.drop 1))), st)
      | some (some o) =>
          (some (some (.error ("First argument to push must be ARRAY. Got " ++ o.typeTag))), st)
      | _ => (none, st)
  else if name == "pop" then
    match arguments with
    | [some (.array _ elements)] =>
        if elements.length == 0 then
          (some (some (.error "Cannot pop from an empty array")), st)
        else
          let (id, st) := allocId st
          (some (some (.array id (elements.take (elements.length - 1)))), st)
    | [some o] =>
        (some (some (.error ("Argument to pop must be ARRAY. Got " ++ o.typeTag))), st)
    | [none] => (none, st)
    | _ => (some (some (wrongArgs arguments.length "1")), st)
  else if name == "unshift" then
    if arguments.length < 2 then (some (some (wrongArgs arguments.length "minimum 2")), st)
    else
      match arguments.head? with
      | some (some (.array _ elements)) =>
          let (id, st) := allocId st
          (some (some (.array id (arguments.drop 1 ++ elements))), st)
      | some (some o) =>
          (some (some (.error ("First argument to unshift must be ARRAY. Got " ++ o.typeTag))), st)
      | _ => (none, st)
  else if name == "shift" then
    match arguments with
    | [some (.array _ elements)] =>
        if elements.length == 0 then
          (some (some (.error "Cannot pop from an empty array")), st)
        else
          let (id, st) := allocId st
          (some (some (.array id (elements.drop 1))), st)
    | [some o] =>
        (some (some (.error ("Argument to shift must be ARRAY. Got " ++ o.typeTag))), st)
    | [none] => (none, st)
    | _ => (some (some (wrongArgs arguments.length "1")), st)
  else if name == "keys" then
    match arguments with
    | [some (.hash h pairs)] =>
        let (id, st) := allocId st
        (some (some (.array id ((iterElements (.hash h pairs)).getD []))), st)
    | [some o] =>
        (some (some (.error ("Argument to keys must be HASH. Got " ++ o.typeTag))), st)
    | [none] => (none, st)
    | _ => (some (some (wrongArgs arguments.length "1")), st)
  else if name == "values" then
    match arguments with
    | [some (.hash _ pairs)] =>
        let (id, st) := allocId st
        (some (some (.array id (pairs.map fun p => p.snd.snd))), st)
    | [some o] =>
        (some (some (.error ("Argument to values must be HASH. Got " ++ o.typeTag))), st)
    | [none] => (none, st)
    | _ => (some (some (wrongArgs arguments.length "1")), st)
  else if name == "delete" then
    match arguments with
    | [a, b] =>
        match a with
        | some (.hash _ pairs) =>
            match b with
            | some k =>
                match hashKey? k with
                | some hk =>
                    let (id, st) := allocId st
                    (some (some (.hash id (pairsWithout pairs hk))), st)
                | none =>
                    (some (some (.error ("Key of type " ++ k.typeTag ++ " cannot be hashed"))), st)
            | none => (none, st)
        | some o =>
            (some (some (.error ("First argument to delete must be HASH. Got " ++ o.typeTag))), st)
        | none => (none, st)
    -- the source's arity message for delete says want=1
    | _ => (some (some (wrongArgs arguments.length "1")), st)
  else (none, st)

/-! ## Evaluator (evaluator/evaluator.go)

The evaluation functions below translate the evaluator file whose
Integer/Float arithmetic, assignment, loops and indexing the claims
cite.  The parser additionally produces break, continue and try
statements whose evaluator cases are in the part of the evaluator
missing from src/; those three cases, marked below, are modelled from
the spec (§4.2 try/catch/finally and loop evaluation, §9 dedicated
break/continue signal values distinct from Error).  Every function
takes fuel and yields `fuelOut` when it runs out; a Go runtime panic
is `panicked`; `ok v` carries a possibly-nil result value. -/

/-- Outcome of one evaluation. -/
inductive RunRes where
  | ok (v : GoV)
  | panicked
  | fuelOut

/-- Outcome of evaluating an expression list. -/
inductive RunResL where
  | ok (vs : List GoV)
  | panicked
  | fuelOut

/-- Evaluation dispatch argument: the node forms Eval switches on. -/
inductive Node where
  | prog (p : Program)
  | stmt (s : Stmt)
  | block (b : List Stmt)
  | expr (e : Expr)

/-- Map insertion of a hash pair (replace the pair of an existing key,
append otherwise). -/
def hashInsert (pairs : List (HashKey × Object × GoV)) (k : HashKey)
    (key : Object) (v : GoV) : List (HashKey × Object × GoV) :=
  match pairs with
  | [] => [(k, key, v)]
  | (k2, key2, v2) :: rest =>
      if k2 == k then (k, key, v) :: rest
      else (k2, key2, v2) :: hashInsert rest k key v

/-- evalIdentifier: the environment chain first, then the built-in
catalog, else an unknown-identifier error naming the identifier and
its location. -/
def evalIdentifier (name : String) (loc : String) (env : Nat) (st : EvalState)
    : RunRes :=
  match envGet st env name with
  | some v => .ok v
  | none =>
      if builtinNames.contains name then .ok (some (.builtin name))
      else .ok (some (.error ("Identifier: " ++ name ++ " not found at " ++ loc)))

/-- getEnclosedFunctionEnv's binding loop: parameters bound
positionally to the argument at the same index (the caller has ruled
out the short-argument panic). -/
def bindParameters (parameters : List String) (arguments : List GoV)
    (envId : Nat) (st : EvalState) : EvalState :=
  match parameters, arguments with
  | [], _ => st
  | _ :: _, [] => st
  | p :: ps, a :: as_ => bindParameters ps as_ envId (envSet st envId p a)

set_option maxHeartbeats 2000000 in
mutual

/-- Eval: dispatch on the node type, as the evaluator's switch does.
Break, continue and try statements are the spec-modelled cases; a
typed-nil statement node (failed sub-parse) dereferences nil in its
case's handler, a panic. -/
def Eval : Nat → Node → Nat → EvalState → RunRes × EvalState
  | 0, _, _, st => (.fuelOut, st)
  | fuel + 1, node, env, st =>
      match node with
      | .prog p => evalProgramLoopE fuel none p.statements env st
      | .block b => evalBlockLoopE fuel none b env st
      | .stmt s =>
          match s with
          | .letStatement name value => evalLetStatement fuel name value env st
          | .returnStatement value => evalReturnStatement fuel value env st
          | .expressionStatement e => evalOptExpr fuel e env st
          | .forStatement element _ iterator body =>
              evalForStatement fuel element iterator body env st
          | .whileStatement condition body =>
              evalWhileStatement fuel condition body env st
          -- Modelled from the spec (§9): break evaluates to the
          -- dedicated loop-break signal value
          | .breakStatement => (.ok (some .breakSignal), st)
          -- Modelled from the spec (§9): continue evaluates to the
          -- dedicated loop-continue signal value
          | .continueStatement => (.ok (some .continueSignal), st)
          | .tryStatement tryBlock errName _ catchBlock finallyBlock =>
              evalTryStatement fuel tryBlock errName catchBlock finallyBlock env st
          | .failedStatement => (.panicked, st)
      | .expr e =>
          match e with
          | .identifier name loc => (evalIdentifier name loc env st, st)
          | .integerLiteral v _ => (.ok (some (.integer v)), st)
          | .floatLiteral q _ => (.ok (some (.float q)), st)
          | .booleanLiteral b _ => (.ok (some (nativeToBooleanObject b)), st)
          | .stringLiteral s => (.ok (some (.str s)), st)
          | .prefixExpression op right => evalPrefixExpression fuel op right env st
          | .infixExpression left op right =>
              evalInfixExpression fuel left op right env st
          | .assignExpression varName varLoc value =>
              evalAssignExpression fuel varName varLoc value env st
          | .ifExpression condition consequence alternate =>
              evalIfExpression fuel condition consequence alternate env st
          | .indexExpression array index =>
              evalIndexExpression fuel array index env st
          | .callExpression function arguments =>
              evalCallExpression fuel function arguments env st
          | .arrayLiteral elements => evalArrayLiteral fuel elements env st
          | .hashLiteral pairs => evalHashLiteral fuel pairs env st
          | .functionLiteral parameters body =>
              let (id, st) := allocId st
              (.ok (some (.function id parameters body env)), st)

  termination_by structural fuel => fuel

/-- Eval of a possibly-nil expression: Eval(nil) falls through the
switch and yields a nil result. -/
def evalOptExpr : Nat → Option Expr → Nat → EvalState → RunRes × EvalState
  | 0, _, _, st => (.fuelOut, st)
  | fuel + 1, e, env, st =>
      match e with
      | some e => Eval fuel (.expr e) env st
      | none => (.ok none, st)

  termination_by structural fuel => fuel

/-- Eval of a possibly-nil block: a nil block panics dereferencing its
statement list. -/
def evalOptBlock : Nat → Option (List Stmt) → Nat → EvalState → RunRes × EvalState
  | 0, _, _, st => (.fuelOut, st)
  | fuel + 1, b, env, st =>
      match b with
      | some b => Eval fuel (.block b) env st
      | none => (.panicked, st)

  termination_by structural fuel => fuel

/-- The statement loop of evalProgram: evaluates statements in order;
a ReturnValue result yields its wrapped value and an Error result
yields itself, both ending the program; otherwise the last statement's
result is the program's. -/
def evalProgramLoopE : Nat → GoV → List Stmt → Nat → EvalState → RunRes × EvalState
  | 0, _, _, _, st => (.fuelOut, st)
  | fuel + 1, result, stmts, env, st =>
      match stmts with
      | [] => (.ok result, st)
      | s :: rest =>
          match Eval fuel (.stmt s) env st with
          | (.ok v, st) =>
              match v with
              | some (.returnValue rv) => (.ok rv, st)
              | some (.error m) => (.ok (some (.error m)), st)
              | _ => evalProgramLoopE fuel v rest env st
          | other => other

  termination_by structural fuel => fuel

/-- The statement loop of evalBlockStatement: stops at an error or a
RETURN result; the spec-modelled break/continue signals also stop the
block (§9: control-flow values are checked after every eval call). -/
def evalBlockLoopE : Nat → GoV → List Stmt → Nat → EvalState → RunRes × EvalState
  | 0, _, _, _, st => (.fuelOut, st)
  | fuel + 1, result, stmts, env, st =>
      match stmts with
      | [] => (.ok result, st)
      | s :: rest =>
          match Eval fuel (.stmt s) env st with
          | (.ok v, st) =>
              if isError v then (.ok v, st)
              else
                match v with
                | some (.returnValue rv) => (.ok (some (.returnValue rv)), st)
                -- Modelled from the spec: the loop signals propagate
                -- out of the block to the enclosing loop
                | some .breakSignal => (.ok (some .breakSignal), st)
                | some .continueSignal => (.ok (some .continueSignal), st)
                | _ => evalBlockLoopE fuel v rest env st
          | other => other

  termination_by structural fuel => fuel

/-- evalLetStatement: evaluates the value, propagates an error,
otherwise binds the name in the current environment; its own result is
nil. -/
def evalLetStatement : Nat → String → Option Expr → Nat → EvalState
    → RunRes × EvalState
  | 0, _, _, _, st => (.fuelOut, st)
  | fuel + 1, name, value, env, st =>
      match evalOptExpr fuel value env st with
      | (.ok v, st) =>
          if isError v then (.ok v, st)
          else (.ok none, envSet st env name v)
      | other => other

  termination_by structural fuel => fuel

/-- evalReturnStatement: wraps the evaluated value (errors propagate
unwrapped). -/
def evalReturnStatement : Nat → Option Expr → Nat → EvalState → RunRes × EvalState
  | 0, _, _, st => (.fuelOut, st)
  | fuel + 1, value, env, st =>
      match evalOptExpr fuel value env st with
      | (.ok v, st) =>
          if isError v then (.ok v, st)
          else (.ok (some (.returnValue v)), st)
      | other => other

  termination_by structural fuel => fuel

/-- evalPrefixExpression: evaluates the operand, propagates an error,
then applies minus or bang; an unknown prefix operator formats the
operand's type (a nil operand is a nil dereference there). -/
def evalPrefixExpression : Nat → String → Option Expr → Nat → EvalState
    → RunRes × EvalState
  | 0, _, _, _, st => (.fuelOut, st)
  | fuel + 1, op, right, env, st =>
      match evalOptExpr fuel right env st with
      | (.ok operand, st) =>
          if isError operand then (.ok operand, st)
          else if op == token.MINUS then
            match evalMinusExpression operand with
            | some v => (.ok v, st)
            | none => (.panicked, st)
          else if op == token.BANG then (.ok (evalBangExpression operand), st)
          else
            match operand with
            | some o =>
                (.ok (some (.error ("Unknown operator: " ++ op ++ o.typeTag))), st)
            | none => (.panicked, st)
      | other => other

  termination_by structural fuel => fuel

/-- evalInfixExpression: evaluates both operands left to right,
propagating the first error, then applies evalInfixOperation. -/
def evalInfixExpression : Nat → Option Expr → String → Option Expr → Nat
    → EvalState → RunRes × EvalState
  | 0, _, _, _, _, st => (.fuelOut, st)
  | fuel + 1, left, op, right, env, st =>
      match evalOptExpr fuel left env st with
      | (.ok leftOperand, st) =>
          if isError leftOperand then (.ok leftOperand, st)
          else
            match evalOptExpr fuel right env st with
            | (.ok rightOperand, st) =>
                if isError rightOperand then (.ok rightOperand, st)
                else
                  match evalInfixOperation leftOperand op rightOperand with
                  | some v => (.ok v, st)
                  | none => (.panicked, st)
            | other => other
      | other => other

  termination_by structural fuel => fuel

/-- evalAssignExpression: an identifier unbound in the whole visible
chain is an error naming it; otherwise the right-hand side is
evaluated (errors propagate) and Update mutates the nearest enclosing
environment defining the name, the assignment's result being the
value. -/
def evalAssignExpression : Nat → String → String → Option Expr → Nat
    → EvalState → RunRes × EvalState
  | 0, _, _, _, _, st => (.fuelOut, st)
  | fuel + 1, varName, varLoc, value, env, st =>
      if (envGet st env varName).isNone then
        (.ok (some (.error ("Identifier: " ++ varName ++ " is not defined at " ++ varLoc))), st)
      else
        match evalOptExpr fuel value env st with
        | (.ok v, st) =>
            if isError v then (.ok v, st)
            else (.ok v, envUpdate st env varName v)
        | other => other

  termination_by structural fuel => fuel

/-- evalIfExpression: evaluates the condition (errors propagate); a
truthy condition evaluates the consequence, else the alternate when
present, else NULL. -/
def evalIfExpression : Nat → Option Expr → Option (List Stmt)
    → Option (List Stmt) → Nat → EvalState → RunRes × EvalState
  | 0, _, _, _, _, st => (.fuelOut, st)
  | fuel + 1, condition, consequence, alternate, env, st =>
      match evalOptExpr fuel condition env st with
      | (.ok c, st) =>
          if isError c then (.ok c, st)
          else if isTrue c then evalOptBlock fuel consequence env st
          else
            match alternate with
            | some b => evalOptBlock fuel (some b) env st
            | none => (.ok (some NULL), st)
      | other => other

  termination_by structural fuel => fuel

/-- evalForExpression (for statements): evaluates the iterator, errors
on a non-iterable, provisions ONE local environment for the whole
loop, then for each element binds the loop variable in it and
evaluates the body; an error or RETURN result ends the loop.  The
spec-modelled signals: break ends the loop yielding its normal nil
result, continue moves to the next element. -/
def evalForStatement : Nat → String → Option Expr → Option (List Stmt) → Nat
    → EvalState → RunRes × EvalState
  | 0, _, _, _, _, st => (.fuelOut, st)
  | fuel + 1, element, iterator, body, env, st =>
      match evalOptExpr fuel iterator env st with
      | (.ok iterObject, st) =>
          match iterObject with
          | none => (.panicked, st)
          | some o =>
              match iterElements o with
              | none => (.ok (some (.error (o.typeTag ++ ": is not iterable"))), st)
              | some elements =>
                  let (localEnv, st) := allocEnv st (some env)
                  evalForLoopE fuel element elements body localEnv st
      | other => other

  termination_by structural fuel => fuel

/-- The element loop of the for evaluation (see evalForStatement). -/
def evalForLoopE : Nat → String → List GoV → Option (List Stmt) → Nat
    → EvalState → RunRes × EvalState
  | 0, _, _, _, _, st => (.fuelOut, st)
  | fuel + 1, element, items, body, localEnv, st =>
      match items with
      | [] => (.ok none, st)
      | item :: rest =>
          let st := envSet st localEnv element item
          match evalOptBlock fuel body localEnv st with
          | (.ok v, st) =>
              if isError v then (.ok v, st)
              else
                match v with
                | some (.returnValue rv) => (.ok (some (.returnValue rv)), st)
                -- Modelled from the spec: break terminates the loop
                -- without an error; continue proceeds with the next
                -- element
                | some .breakSignal => (.ok none, st)
                | _ => evalForLoopE fuel element rest body localEnv st
          | other => other

  termination_by structural fuel => fuel

/-- evalWhileExpression (while statements): one local environment for
the whole loop; the condition is re-evaluated before each iteration
(errors propagate); a falsy condition ends the loop with a nil result;
body errors and RETURN results propagate; the spec-modelled break ends
the loop, continue re-tests the condition. -/
def evalWhileStatement : Nat → Option Expr → Option (List Stmt) → Nat
    → EvalState → RunRes × EvalState
  | 0, _, _, _, st => (.fuelOut, st)
  | fuel + 1, condition, body, env, st =>
      let (localEnv, st) := allocEnv st (some env)
      evalWhileLoopE fuel condition body localEnv st

  termination_by structural fuel => fuel

/-- The iteration loop of the while evaluation. -/
def evalWhileLoopE : Nat → Option Expr → Option (List Stmt) → Nat
    → EvalState → RunRes × EvalState
  | 0, _, _, _, st => (.fuelOut, st)
  | fuel + 1, condition, body, localEnv, st =>
      match evalOptExpr fuel condition localEnv st with
      | (.ok c, st) =>
          if isError c then (.ok c, st)
          else if isTrue c then
            match evalOptBlock fuel body localEnv st with
            | (.ok v, st) =>
                if isError v then (.ok v, st)
                else
                  match v with
                  | some (.returnValue rv) => (.ok (some (.returnValue rv)), st)
                  | some .breakSignal => (.ok none, st)
                  | _ => evalWhileLoopE fuel condition body localEnv st
            | other => other
          else (.ok none, st)
      | other => other

  termination_by structural fuel => fuel

/-- Modelled from the spec (§4.2): try/catch/finally.  The try block is
evaluated; if its result is an Error value, the catch block runs in a
fresh environment with the error bound (as a value) to the catch
identifier, replacing the result; the finally block, when present,
then runs for effects and overrides the result only when it itself
produces an Error.  Host panics are not Error values and propagate
through. -/
def evalTryStatement : Nat → Option (List Stmt) → String → Option (List Stmt)
    → Option (List Stmt) → Nat → EvalState → RunRes × EvalState
  | 0, _, _, _, _, _, st => (.fuelOut, st)
  | fuel + 1, tryBlock, errName, catchBlock, finallyBlock, env, st =>
      match evalOptBlock fuel tryBlock env st with
      | (.ok v, st) =>
          let (result, st) :=
            if isError v then
              let (catchEnv, st) := allocEnv st (some env)
              let st := envSet st catchEnv errName v
              evalOptBlock fuel catchBlock catchEnv st
            else (RunRes.ok v, st)
          match result with
          | .ok rv =>
              match finallyBlock with
              | none => (.ok rv, st)
              | some finB =>
                  match evalOptBlock fuel (some finB) env st with
                  | (.ok fv, st) =>
                      if isError fv then (.ok fv, st) else (.ok rv, st)
                  | other => other
          | other => (other, st)
      | other => other

  termination_by structural fuel => fuel

/-- evalIndexExpression: evaluates the operand and the index (errors
propagate), then dispatches array[int], string[int] and hash[key];
any other combination is an unsupported-index error.  Type() calls on
a nil operand or index are nil dereferences. -/
def evalIndexExpression : Nat → Option Expr → Option Expr → Nat → EvalState
    → RunRes × EvalState
  | 0, _, _, _, st => (.fuelOut, st)
  | fuel + 1, array, index, env, st =>
      match evalOptExpr fuel array env st with
      | (.ok left, st) =>
          if isError left then (.ok left, st)
          else
            match evalOptExpr fuel index env st with
            | (.ok idx, st) =>
                if isError idx then (.ok idx, st)
                else
                  match left, idx with
                  | some (.array _ elements), some (.integer i) =>
                      (.ok (evalArrayIndexExpression elements i), st)
                  | some (.str s), some (.integer i) =>
                      (.ok (evalStringIndexExpression s i), st)
                  | some (.hash _ pairs), i =>
                      match evalHashIndexExpression pairs i with
                      | some v => (.ok v, st)
                      | none => (.panicked, st)
                  | some l, some i =>
                      (.ok (some (.error ("Index operation not supported for: "
                        ++ l.typeTag ++ "[" ++ i.typeTag ++ "]"))), st)
                  | _, _ => (.panicked, st)
            | other => other
      | other => other

  termination_by structural fuel => fuel

/-- evalCallExpression: evaluates the callee (errors propagate), then
the argument list (a single error short-circuits), then applies. -/
def evalCallExpression : Nat → Option Expr → List (Option Expr) → Nat
    → EvalState → RunRes × EvalState
  | 0, _, _, _, st => (.fuelOut, st)
  | fuel + 1, function, argumentExprs, env, st =>
      match evalOptExpr fuel function env st with
      | (.ok fn, st) =>
          if isError fn then (.ok fn, st)
          else
            match evalExpressions fuel argumentExprs env st with
            | (.ok arguments, st) =>
                if arguments.length == 1 && isError (arguments.getD 0 none) then
                  (.ok (arguments.getD 0 none), st)
                else applyFunction fuel fn arguments st
            | (.panicked, st) => (.panicked, st)
            | (.fuelOut, st) => (.fuelOut, st)
      | other => other

  termination_by structural fuel => fuel

/-- evalExpressions: left-to-right evaluation; the first error is
returned alone. -/
def evalExpressions : Nat → List (Option Expr) → Nat → EvalState
    → RunResL × EvalState
  | 0, _, _, st => (.fuelOut, st)
  | fuel + 1, exprs, env, st =>
      match exprs with
      | [] => (.ok [], st)
      | e :: rest =>
          match evalOptExpr fuel e env st with
          | (.ok v, st) =>
              if isError v then (.ok [v], st)
              else
                match evalExpressions fuel rest env st with
                | (.ok vs, st) =>
                    if vs.length == 1 && isError (vs.getD 0 none) then (.ok vs, st)
                    else (.ok (v :: vs), st)
                | other => other
          | (.panicked, st) => (.panicked, st)
          | (.fuelOut, st) => (.fuelOut, st)

  termination_by structural fuel => fuel

/-- applyFunction: a Function value gets a fresh environment parented
at its captured environment with the parameters bound positionally
(an argument list shorter than the parameter list is an index-range
panic), evaluates its body and unwraps one ReturnValue; a Builtin
applies natively; anything else (including nil) is the not-a-function
error, a nil dereference for nil. -/
def applyFunction : Nat → GoV → List GoV → EvalState → RunRes × EvalState
  | 0, _, _, st => (.fuelOut, st)
  | fuel + 1, function, arguments, st =>
      match function with
      | some (.function _ parameters body fnEnv) =>
          if arguments.length < parameters.length then (.panicked, st)
          else
            let (enclosedEnv, st) := allocEnv st (some fnEnv)
            let st := bindParameters parameters arguments enclosedEnv st
            match evalOptBlock fuel body enclosedEnv st with
            | (.ok v, st) =>
                match v with
                | some (.returnValue rv) => (.ok rv, st)
                | _ => (.ok v, st)
            | other => other
      | some (.builtin name) =>
          match applyBuiltin name arguments st with
          | (some v, st) => (.ok v, st)
          | (none, st) => (.panicked, st)
      | some other => (.ok (some (.error (other.typeTag ++ ": not a function"))), st)
      | none => (.panicked, st)

  termination_by structural fuel => fuel

/-- evalArrayLiteral: evaluates the elements (a single error result
propagates) and allocates the array. -/
def evalArrayLiteral : Nat → List (Option Expr) → Nat → EvalState
    → RunRes × EvalState
  | 0, _, _, st => (.fuelOut, st)
  | fuel + 1, elementExprs, env, st =>
      match evalExpressions fuel elementExprs env st with
      | (.ok elements, st) =>
          if elements.length == 1 && isError (elements.getD 0 none) then
            (.ok (elements.getD 0 none), st)
          else
            let (id, st) := allocId st
            (.ok (some (.array id elements)), st)
      | (.panicked, st) => (.panicked, st)
      | (.fuelOut, st) => (.fuelOut, st)

  termination_by structural fuel => fuel

/-- evalHashLiteral: evaluates keys and values pairwise (errors
propagate; an unhashable key is an error, a nil key a panic at its
type format), inserting by hash key, then allocates the hash.  Go
iterates the AST pair map in randomized order; parse order is used
here and no theorem depends on the order of distinct keys. -/
def evalHashLiteral : Nat → List (Option Expr × Option Expr) → Nat → EvalState
    → RunRes × EvalState
  | 0, _, _, st => (.fuelOut, st)
  | fuel + 1, pairExprs, env, st =>
      evalHashPairsE fuel [] pairExprs env st

  termination_by structural fuel => fuel

/-- The pair loop of evalHashLiteral. -/
def evalHashPairsE : Nat → List (HashKey × Object × GoV)
    → List (Option Expr × Option Expr) → Nat → EvalState → RunRes × EvalState
  | 0, _, _, _, st => (.fuelOut, st)
  | fuel + 1, acc, pairExprs, env, st =>
      match pairExprs with
      | [] =>
          let (id, st) := allocId st
          (.ok (some (.hash id acc)), st)
      | (keyNode, valueNode) :: rest =>
          match evalOptExpr fuel keyNode env st with
          | (.ok k, st) =>
              if isError k then (.ok k, st)
              else
                match k with
                | none => (.panicked, st)
                | some key =>
                    match hashKey? key with
                    | none =>
                        (.ok (some (.error ("Key: " ++ key.typeTag ++ " cannot be hashed"))), st)
                    | some hashed =>
                        match evalOptExpr fuel valueNode env st with
                        | (.ok v, st) =>
                            if isError v then (.ok v, st)
                            else
                              evalHashPairsE fuel (hashInsert acc hashed key v) rest env st
                        | other => other
          | other => other

  termination_by structural fuel => fuel

end


/-- The front end of main.go on a clean parse: evaluates the parsed
program against a fresh root environment (environment 0 of the initial
state).  The fuel decreases only with nesting and loop iterations, so
this budget is generous for the programs proved about; the concrete
results below certify its sufficiency on those inputs. -/
def evalSource (source : String) : RunRes × EvalState :=
  Eval 1000 (.prog (parseSource source).fst) 0 initState

/-- Result value of running a source string. -/
def evalSourceV (source : String) : RunRes :=
  (evalSource source).fst

/-! ## Result observations

Decidable projections of evaluation results, used to state concrete
program results (object equality on the nested object type has no
derived decision procedure). -/

/-- Projects an integer result value. -/
def elemInt : GoV → Option Int
  | some (.integer v) => some v
  | _ => none

/-- A run that completed with an Integer object of this value. -/
def resInt : RunRes → Option Int
  | .ok v => elemInt v
  | _ => none

/-- A run that completed with the NULL object. -/
def resIsNull : RunRes → Bool
  | .ok (some .null) => true
  | _ => false

/-- A run that completed with a Boolean object of this value. -/
def resBool : RunRes → Option Bool
  | .ok (some (.boolean b)) => some b
  | _ => none

/-- A run that completed with a String object of this content. -/
def resStr : RunRes → Option String
  | .ok (some (.str s)) => some s
  | _ => none

/-- A run that completed with an Error object of this message. -/
def resErr : RunRes → Option String
  | .ok (some (.error m)) => some m
  | _ => none

/-- A run that ended in a host panic (a Go runtime crash, distinct from
every Error value and from every normal completion). -/
def resIsPanic : RunRes → Bool
  | .panicked => true
  | _ => false

/-- A run that completed with an Array object: its elements through the
integer projection (`some k` pins the element to be the Integer k,
`none` pins it to be a non-integer). -/
def resIntArray : RunRes → Option (List (Option Int))
  | .ok (some (.array _ elements)) => some (elements.map elemInt)
  | _ => none

/-! ## Shared reduction lemmas -/

/-- wrap64 is the identity on the 64-bit range. -/
theorem wrap64_eq_self (z : Int) (h1 : -(2 ^ 63) ≤ z) (h2 : z < 2 ^ 63) :
    wrap64 z = z := by
  unfold wrap64
  omega

/-- The truncating quotient of in-range 64-bit values stays in range
except at the single overflowing pair (-2^63) / (-1). -/
theorem tdiv_in_range (a b : Int) (ha1 : -(2 ^ 63) ≤ a) (ha2 : a < 2 ^ 63)
    (hb1 : -(2 ^ 63) ≤ b) (hb2 : b < 2 ^ 63) (hb : b ≠ 0)
    (hex : ¬(a = -(2 ^ 63) ∧ b = -1)) :
    -(2 ^ 63) ≤ a.tdiv b ∧ a.tdiv b < 2 ^ 63 := by
  have hna : a.natAbs ≤ 2 ^ 63 := by omega
  have habs : (a.tdiv b).natAbs = a.natAbs / b.natAbs := Int.natAbs_tdiv a b
  have hdivle : a.natAbs / b.natAbs ≤ a.natAbs := Nat.div_le_self _ _
  have hq : (a.tdiv b).natAbs ≤ 2 ^ 63 := by omega
  constructor
  · omega
  · by_contra hge
    have htop : a.tdiv b = 2 ^ 63 := by omega
    have habs2 : a.natAbs / b.natAbs = 2 ^ 63 := by
      rw [← habs, htop]
      rfl
    have hbpos : 0 < b.natAbs := by omega
    have hle := (Nat.le_div_iff_mul_le hbpos).mp (le_of_eq habs2.symm)
    have hbone : b.natAbs = 1 := by
      by_contra hne
      have h2 : 2 ≤ b.natAbs := by omega
      have := Nat.mul_le_mul_left (2 ^ 63) h2
      omega
    have hae : a = -(2 ^ 63) := by omega
    have hbe : b = 1 ∨ b = -1 := by omega
    rcases hbe with hbe | hbe
    · rw [hae, hbe, Int.tdiv_one] at htop
      omega
    · exact hex ⟨hae, hbe⟩

/-- Definitional reduction of integer equality through the infix
dispatcher. -/
theorem evalEq_int (a b : Int) :
    evalInfixOperation (some (.integer a)) token.EQ (some (.integer b))
      = some (some (nativeToBooleanObject (a == b))) := rfl

/-- Definitional reduction of float equality through the infix
dispatcher. -/
theorem evalEq_float (a b : GoFloat) :
    evalInfixOperation (some (.float a)) token.EQ (some (.float b))
      = some (some (nativeToBooleanObject (fEqB a b))) := rfl

/-- Definitional reduction of string equality through the infix
dispatcher. -/
theorem evalEq_str (a b : String) :
    evalInfixOperation (some (.str a)) token.EQ (some (.str b))
      = some (some (nativeToBooleanObject (a == b))) := rfl

/-- Definitional reduction of boolean equality (the identity fallback
on the shared TRUE/FALSE singletons) through the infix dispatcher. -/
theorem evalEq_bool (a b : Bool) :
    evalInfixOperation (some (.boolean a)) token.EQ (some (.boolean b))
      = some (some (nativeToBooleanObject (a == b))) := rfl

/-- A TRUE outcome of nativeToBooleanObject means the test was true. -/
theorem nativeToBoolean_true {c : Bool}
    (h : nativeToBooleanObject c = TRUE) : c = true := by
  cases c
  · simp [nativeToBooleanObject, TRUE, FALSE] at h
  · rfl

/-- Well-formedness of the float representation: a positive
denominator.  Every float built by the parser and by arithmetic other
than division by a zero-valued float satisfies it. -/
def floatWF : Object → Prop
  | .float f => 0 < f.den
  | _ => True

/-! ## Claim theorems -/

/-- Claim C1: the claim states that `try { 10/0 } catch e { str(e) }`
yields a normal value with the division error caught, and that every
language-level runtime failure is a recoverable Error value.  On the
code, evalIntOperation divides with no zero check, so 10/0 is a Go
runtime panic — a host crash that is not an Error value and escapes
the try/catch: the program panics instead of completing, contradicting
the claim (and the project README, which documents exactly this
program as catching the error).  This theorem evaluates the code at
the failing input. -/
theorem c1_division_by_zero_panics :
    evalIntOperation 10 token.SLASH 0 = none
    ∧ resIsPanic (evalSourceV "try \x7b 10/0 \x7d catch e \x7b str(e) \x7d") = true
    ∧ resErr (evalSourceV "try \x7b 10/0 \x7d catch e \x7b str(e) \x7d") = none
    ∧ resInt (evalSourceV "try \x7b 10/2 \x7d catch e \x7b str(e) \x7d") = some 5 := by
  refine ⟨rfl, by decide, by decide, by decide⟩

/-- Claim C2, counterexample: the integer 2 and the float 2.0 compare
equal under the language's `==` (the int operand is float-promoted),
yet their hash keys differ — the key carries the value's kind tag,
INTEGER versus FLOAT — so a hash built with key 2.0 yields null when
indexed with 2 and its value when indexed with 2.0. -/
theorem c2_int_float_hashkey_counterexample :
    evalInfixOperation (some (.integer 2)) token.EQ (some (.float (fofInt 2)))
      = some (some TRUE)
    ∧ hashKey? (.integer 2) ≠ hashKey? (.float (fofInt 2))
    ∧ resIsNull (evalSourceV "let h = \x7b2.0: 5\x7d; h[2]") = true
    ∧ resInt (evalSourceV "let h = \x7b2.0: 5\x7d; h[2.0]") = some 5 := by
  refine ⟨rfl, by decide, by decide, by decide⟩

/-- Claim C2, amended: for two hashable runtime values OF THE SAME
KIND (and, for floats, with the well-formed positive denominator every
value arising from literals and arithmetic short of division by a
zero-valued float has), equality under the language's `==` implies
equal hash keys; the cross-kind instance the claim asserts (integer 2
versus float 2.0) fails because hash keys carry the kind tag. -/
theorem c2_same_kind_equal_hashkey (u v : Object)
    (hu : (hashKey? u).isSome) (hwu : floatWF u) (hwv : floatWF v)
    (hk : u.typeTag = v.typeTag)
    (heq : evalInfixOperation (some u) token.EQ (some v) = some (some TRUE)) :
    hashKey? u = hashKey? v := by
  cases u <;> cases v <;>
    first
    | (simp only [Object.typeTag, INTEGER_OBJ, FLOAT_OBJ, STRING_OBJ,
        BOOLEAN_OBJ, ARRAY_OBJ, HASH_OBJ, NULL_OBJ, RETURN_OBJ, FUNCTION_OBJ,
        ERROR_OBJ, BUILTIN_OBJ, BREAK_OBJ, CONTINUE_OBJ] at hk
       exact absurd hk (by decide))
    | (simp only [hashKey?] at hu
       exact absurd hu (by decide))
    | skip
  case integer.integer a b =>
    rw [evalEq_int] at heq
    have hab : (a == b) = true := nativeToBoolean_true (by injection heq with h2; injection h2)
    rw [eq_of_beq hab]
  case float.float a b =>
    rw [evalEq_float] at heq
    have hab : fEqB a b = true := nativeToBoolean_true (by injection heq with h2; injection h2)
    have hcross : a.num * b.den = b.num * a.den := by
      have := eq_of_beq (a := a.num * b.den) (b := b.num * a.den) hab
      exact this
    have hda : (0 : Int) < a.den := hwu
    have hdb : (0 : Int) < b.den := hwv
    have hmk : mkRat a.num a.den.toNat = mkRat b.num b.den.toNat := by
      rw [Rat.mkRat_eq_div, Rat.mkRat_eq_div]
      have hqa : ((a.den.toNat : Rat)) ≠ 0 := by
        have : 0 < a.den.toNat := by omega
        exact_mod_cast Nat.pos_iff_ne_zero.mp this
      have hqb : ((b.den.toNat : Rat)) ≠ 0 := by
        have : 0 < b.den.toNat := by omega
        exact_mod_cast Nat.pos_iff_ne_zero.mp this
      rw [div_eq_div_iff hqa hqb]
      have h1 : (a.den.toNat : Int) = a.den := Int.toNat_of_nonneg hda.le
      have h2 : (b.den.toNat : Int) = b.den := Int.toNat_of_nonneg hdb.le
      have : a.num * (b.den.toNat : Int) = b.num * (a.den.toNat : Int) := by
        rw [h1, h2]; exact hcross
      exact_mod_cast this
    simp only [hashKey?, floatHashPayload, hmk]
  case str.str a b =>
    rw [evalEq_str] at heq
    have hab : (a == b) = true := nativeToBoolean_true (by injection heq with h2; injection h2)
    rw [eq_of_beq hab]
  case boolean.boolean a b =>
    rw [evalEq_bool] at heq
    have hab : (a == b) = true := nativeToBoolean_true (by injection heq with h2; injection h2)
    rw [eq_of_beq hab]


/-- Claim C2, amended, witness. -/
theorem c2_same_kind_equal_hashkey_witness :
    hashKey? (.integer 2) = hashKey? (.integer 2) :=
  c2_same_kind_equal_hashkey (.integer 2) (.integer 2) (by decide) trivial trivial rfl rfl

/-- Claim C3: a for loop over range(0,5) binds the loop variable to
0,1,2,3,4 in order across exactly five iterations (first program: the
pushes observe every binding in order); all iterations share one
loop-body environment created once, so a binding made in iteration 0
is visible in later iterations (second program); and a break on the
iteration with i = 3 stops the loop without an Error value while the
statement after the loop still runs and delivers the result (third
program: the collected prefix [0,1,2], no error, and the final
statement's value is the program result). -/
theorem c3_for_range_break :
    resIntArray (evalSourceV
        "let a = []; for i in range(0, 5) \x7b a = push(a, i) \x7d; a")
      = some [some 0, some 1, some 2, some 3, some 4]
    ∧ resInt (evalSourceV
        "let r = 0; for i in range(0, 3) \x7b if i == 0 \x7b let x = 7 \x7d else \x7b r = x \x7d \x7d; r")
      = some 7
    ∧ resIntArray (evalSourceV
        "let a = []; for i in range(0, 5) \x7b if i == 3 \x7b break \x7d a = push(a, i) \x7d; a")
      = some [some 0, some 1, some 2]
    ∧ resErr (evalSourceV
        "let a = []; for i in range(0, 5) \x7b if i == 3 \x7b break \x7d a = push(a, i) \x7d; a")
      = none := by
  refine ⟨by decide, by decide, by decide, by decide⟩

/-- Claim C4, counterexample: Go int64 division wraps, so the claim's
universal truncating-division statement fails at the most negative
value divided by -1: the code yields -2^63 where truncating division
of -2^63 by -1 is 2^63 — also reachable from source text. -/
theorem c4_min_int_division_counterexample :
    evalIntOperation (-(2 ^ 63)) token.SLASH (-1) = some (.integer (-(2 ^ 63)))
    ∧ Int.tdiv (-(2 ^ 63)) (-1) = 2 ^ 63
    ∧ ((-(2 ^ 63) : Int)) ≠ 2 ^ 63
    ∧ resInt (evalSourceV "(0 - 9223372036854775807 - 1) / (0 - 1)")
      = some (-(2 ^ 63)) := by
  refine ⟨rfl, by decide, by decide, by decide⟩

/-- Claim C4, amended: on in-range 64-bit operands, integer division
by a nonzero divisor yields the Integer of the truncating quotient
except at the single wrap-around pair (-2^63)/(-1); every mixed
integer/float arithmetic operation yields the Float of the exact
operation on the float promotion of both operands; and integer +,-,*
yield Integers. -/
theorem c4_arithmetic_kinds :
    (∀ a b : Int, -(2 ^ 63) ≤ a → a < 2 ^ 63 → -(2 ^ 63) ≤ b → b < 2 ^ 63 →
      b ≠ 0 → ¬(a = -(2 ^ 63) ∧ b = -1) →
      evalIntOperation a token.SLASH b = some (.integer (Int.tdiv a b)))
    ∧ (∀ (a : Int) (q : GoFloat),
        evalIntFloatOperation a token.PLUS q = some (.float (fAdd (fofInt a) q))
        ∧ evalIntFloatOperation a token.MINUS q = some (.float (fSub (fofInt a) q))
        ∧ evalIntFloatOperation a token.ASTERISK q = some (.float (fMul (fofInt a) q))
        ∧ evalIntFloatOperation a token.SLASH q = some (.float (fDiv (fofInt a) q))
        ∧ evalFloatIntOperation q token.PLUS a = some (.float (fAdd q (fofInt a)))
        ∧ evalFloatIntOperation q token.MINUS a = some (.float (fSub q (fofInt a)))
        ∧ evalFloatIntOperation q token.ASTERISK a = some (.float (fMul q (fofInt a)))
        ∧ evalFloatIntOperation q token.SLASH a = some (.float (fDiv q (fofInt a))))
    ∧ (∀ a b : GoFloat,
        evalFloatOperation a token.PLUS b = some (.float (fAdd a b))
        ∧ evalFloatOperation a token.MINUS b = some (.float (fSub a b))
        ∧ evalFloatOperation a token.ASTERISK b = some (.float (fMul a b))
        ∧ evalFloatOperation a token.SLASH b = some (.float (fDiv a b)))
    ∧ (∀ a b : Int,
        evalIntOperation a token.PLUS b = some (.integer (wrap64 (a + b)))
        ∧ evalIntOperation a token.MINUS b = some (.integer (wrap64 (a - b)))
        ∧ evalIntOperation a token.ASTERISK b = some (.integer (wrap64 (a * b)))) := by
  refine ⟨?_, ?_, ?_, ?_⟩
  · intro a b ha1 ha2 hb1 hb2 hb hex
    have hrange := tdiv_in_range a b ha1 ha2 hb1 hb2 hb hex
    have hbne : (b == 0) = false := by
      exact beq_eq_false_iff_ne.mpr hb
    show (if b == 0 then none else some (Object.integer (goIntDiv a b)))
      = some (Object.integer (Int.tdiv a b))
    rw [hbne]
    simp only [Bool.false_eq_true, if_false, goIntDiv,
      wrap64_eq_self _ hrange.1 hrange.2]
  · intro a q
    exact ⟨rfl, rfl, rfl, rfl, rfl, rfl, rfl, rfl⟩
  · intro a b
    exact ⟨rfl, rfl, rfl, rfl⟩
  · intro a b
    exact ⟨rfl, rfl, rfl⟩

/-- Claim C4, amended, witness. -/
theorem c4_arithmetic_kinds_witness :
    evalIntOperation (-7) token.SLASH 2 = some (.integer (Int.tdiv (-7) 2)) :=
  c4_arithmetic_kinds.1 (-7) 2 (by decide) (by decide) (by decide) (by decide)
    (by decide) (by decide)

/-- The boolean singleton returned by nativeToBooleanObject is the
boolean object of the test. -/
theorem natB_pair (c : Bool) :
    (some (some (nativeToBooleanObject c)) : Option GoV)
      = some (some (.boolean c)) := by
  cases c <;> rfl

/-- The relational operator strings of the language. -/
def relationalOps : List String :=
  [token.LT, token.LT_EQ, token.GT, token.GT_EQ]

/-- Reduction of the infix dispatcher to the type-mismatch error for an
operator that is none of and/or/in/==/!= on a pair that is neither
both-numeric nor both-string. -/
theorem evalInfix_mismatch (u v : Object) (op : String)
    (hA : (op == token.AND) = false) (hO : (op == token.OR) = false)
    (hI : (op == token.IN) = false) (hE : (op == token.EQ) = false)
    (hN : (op == token.NOT_EQ) = false)
    (hnum : ¬(isNumericTag u = true ∧ isNumericTag v = true))
    (htag : u.typeTag ≠ v.typeTag) :
    evalInfixOperation (some u) op (some v)
      = some (some (.error ("Type mismatch: " ++ u.typeTag ++ " " ++ op ++ " " ++ v.typeTag))) := by
  unfold evalInfixOperation evalInfixOperationCore
  simp only [hA, hO, hI, hE, hN, Bool.false_eq_true, if_false]
  cases hnu : isNumericTag u <;> cases hnv : isNumericTag v
  all_goals simp only [Bool.false_and, Bool.and_false, Bool.true_and, Bool.and_true,
    Bool.false_eq_true, if_false]
  case true.true => exact absurd ⟨hnu, hnv⟩ hnum
  all_goals {
    cases hsu : u.typeTag == STRING_OBJ <;> cases hsv : v.typeTag == STRING_OBJ
    case true.true =>
      exact absurd ((eq_of_beq hsu).trans (eq_of_beq hsv).symm) htag
    all_goals simp only [Bool.false_and, Bool.and_false, Bool.true_and,
      Bool.false_eq_true, if_false]
    all_goals {
      have hbne : (u.typeTag != v.typeTag) = true := by
        simp [bne_iff_ne]
        exact htag
      simp only [hbne, if_true]
    }
  }

/-- Claim C5: `==` and `!=` are total — on EVERY pair of operand
values they produce a Boolean object, never an Error; numeric pairs
compare by value (2.0 == 2 true, 2.1 == 2 false), strings by content,
two separately built array literals by reference identity (false);
while a relational operator on operands of different kinds (apart
from the numeric pairs the claim's first clause covers) is a
type-mismatch Error. -/
theorem c5_equality_totality :
    (∀ u v : Object, ∃ b : Bool,
      evalInfixOperation (some u) token.EQ (some v) = some (some (.boolean b)))
    ∧ (∀ u v : Object, ∃ b : Bool,
      evalInfixOperation (some u) token.NOT_EQ (some v) = some (some (.boolean b)))
    ∧ resBool (evalSourceV "2.0 == 2") = some true
    ∧ resBool (evalSourceV "2.1 == 2") = some false
    ∧ resBool (evalSourceV "[1,2] == [1,2]") = some false
    ∧ (∀ s t : String,
        evalInfixOperation (some (.str s)) token.EQ (some (.str t))
          = some (some (nativeToBooleanObject (s == t))))
    ∧ (∀ (u v : Object) (op : String), op ∈ relationalOps →
        ¬(isNumericTag u = true ∧ isNumericTag v = true) →
        u.typeTag ≠ v.typeTag →
        evalInfixOperation (some u) op (some v)
          = some (some (.error ("Type mismatch: " ++ u.typeTag ++ " " ++ op
              ++ " " ++ v.typeTag)))) := by
  refine ⟨?_, ?_, by decide, by decide, by decide, fun s t => rfl, ?_⟩
  · intro u v
    cases u <;> cases v <;> exact ⟨_, natB_pair _⟩
  · intro u v
    cases u <;> cases v <;> exact ⟨_, natB_pair _⟩
  · intro u v op hop hnum htag
    fin_cases hop <;>
      exact evalInfix_mismatch u v _ (by decide) (by decide) (by decide)
        (by decide) (by decide) hnum htag

/-- Claim C5, witness. -/
theorem c5_equality_totality_witness :
    evalInfixOperation (some (.integer 1)) token.LT (some (.str "a"))
      = some (some (.error ("Type mismatch: " ++ (Object.integer 1).typeTag
          ++ " " ++ token.LT ++ " " ++ (Object.str "a").typeTag))) :=
  c5_equality_totality.2.2.2.2.2.2 (.integer 1) (.str "a") token.LT
    (by decide) (by decide) (by decide)

/-! Structural lemmas for function application (claim C6). -/

/-- Modifying the heap at the index of a freshly appended record
rewrites exactly that record. -/
theorem heapModify_append (envs : List EnvRec) (e : EnvRec) (f : EnvRec → EnvRec) :
    heapModify (envs ++ [e]) envs.length f = envs ++ [f e] := by
  induction envs with
  | nil => rfl
  | cons a rest ih => simp [heapModify, ih]

/-- The store produced by the positional parameter binding, as a pure
fold. -/
def bindFold (parameters : List String) (arguments : List GoV) (e : EnvRec) : EnvRec :=
  match parameters, arguments with
  | [], _ => e
  | _ :: _, [] => e
  | p :: ps, a :: as_ => bindFold ps as_ { e with store := storeSet e.store p a }

/-- bindParameters on the freshly appended environment only rewrites
that environment, by the pure fold. -/
theorem bindParameters_fresh (parameters : List String) :
    ∀ (arguments : List GoV) (envs : List EnvRec) (e : EnvRec) (nid : Nat),
    bindParameters parameters arguments envs.length { envs := envs ++ [e], nextId := nid }
      = { envs := envs ++ [bindFold parameters arguments e], nextId := nid } := by
  induction parameters with
  | nil => intro as_ envs e nid; cases as_ <;> rfl
  | cons p ps ih =>
      intro as_ envs e nid
      cases as_ with
      | nil => rfl
      | cons a rest =>
          show bindParameters ps rest envs.length
              (envSet { envs := envs ++ [e], nextId := nid } envs.length p a)
            = _
          have hset : envSet { envs := envs ++ [e], nextId := nid } envs.length p a
              = { envs := envs ++ [{ e with store := storeSet e.store p a }], nextId := nid } := by
            simp [envSet, heapModify_append]
          rw [hset, ih]
          rfl

/-- storeGet on a nonempty store, as a conditional. -/
theorem storeGet_cons (n : String) (w : GoV) (rest : List (String × GoV)) (name : String) :
    storeGet ((n, w) :: rest) name
      = if n == name then some w else storeGet rest name := by
  by_cases h : (n == name) = true
  · simp [storeGet, List.find?, h]
  · have hb : (n == name) = false := by simpa using h
    simp [storeGet, List.find?, hb]

/-- storeGet after storeSet at the same name. -/
theorem storeGet_storeSet_self (store : List (String × GoV)) (name : String) (v : GoV) :
    storeGet (storeSet store name v) name = some v := by
  induction store with
  | nil => simp [storeSet, storeGet_cons]
  | cons hd rest ih =>
      obtain ⟨n, w⟩ := hd
      by_cases hn : (n == name) = true
      · simp [storeSet, hn, storeGet_cons]
      · have hb : (n == name) = false := by simpa using hn
        simp [storeSet, hb, storeGet_cons, ih]

/-- storeGet after storeSet at another name. -/
theorem storeGet_storeSet_ne (store : List (String × GoV)) (name other : String)
    (v : GoV) (h : other ≠ name) :
    storeGet (storeSet store other v) name = storeGet store name := by
  induction store with
  | nil =>
      have hb : (other == name) = false := beq_eq_false_iff_ne.mpr h
      simp [storeSet, storeGet_cons, hb, storeGet]
  | cons hd rest ih =>
      obtain ⟨n, w⟩ := hd
      by_cases hn : (n == other) = true
      · have hno : n = other := eq_of_beq hn
        have hb : (n == name) = false := beq_eq_false_iff_ne.mpr (hno ▸ h)
        simp [storeSet, hn, storeGet_cons, hb]
      · have hb : (n == other) = false := by simpa using hn
        simp only [storeSet, hb, Bool.false_eq_true, if_false]
        rw [storeGet_cons, storeGet_cons, ih]

/-- Names not among the parameters are untouched by the binding fold. -/
theorem bindFold_get_notin (parameters : List String) :
    ∀ (arguments : List GoV) (e : EnvRec) (name : String),
    name ∉ parameters →
    storeGet (bindFold parameters arguments e).store name = storeGet e.store name := by
  induction parameters with
  | nil => intro as_ e name _; cases as_ <;> rfl
  | cons p ps ih =>
      intro as_ e name hnot
      cases as_ with
      | nil => rfl
      | cons a rest =>
          have hne : name ≠ p := fun h => hnot (h ▸ List.mem_cons_self p ps)
          have hnot2 : name ∉ ps := fun h => hnot (List.mem_cons_of_mem p h)
          show storeGet (bindFold ps rest { e with store := storeSet e.store p a }).store name = _
          rw [ih rest _ name hnot2]
          exact storeGet_storeSet_ne e.store name p a hne.symm

/-- Positional binding: with distinct parameter names and enough
arguments, the i-th parameter is bound to the i-th argument. -/
theorem bindFold_positional (parameters : List String) :
    ∀ (arguments : List GoV) (e : EnvRec) (i : Nat) (h : i < parameters.length),
    parameters.Nodup → parameters.length ≤ arguments.length →
    storeGet (bindFold parameters arguments e).store (parameters.get ⟨i, h⟩)
      = some (arguments.getD i none) := by
  induction parameters with
  | nil => intro as_ e i h; exact absurd h (by simp)
  | cons p ps ih =>
      intro as_ e i h hnodup hlen
      cases as_ with
      | nil => simp at hlen
      | cons a rest =>
          cases i with
          | zero =>
              show storeGet (bindFold ps rest { e with store := storeSet e.store p a }).store p
                = some a
              have hpnotin : p ∉ ps := (List.nodup_cons.mp hnodup).1
              rw [bindFold_get_notin ps rest _ p hpnotin]
              exact storeGet_storeSet_self e.store p a
          | succ j =>
              have hj : j < ps.length := by simpa using h
              have := ih rest { e with store := storeSet e.store p a } j hj
                (List.nodup_cons.mp hnodup).2 (by simpa using hlen)
              simpa using this

/-- getD of a list at the index of its freshly appended last element. -/
theorem getD_append_self (l : List EnvRec) (e d : EnvRec) :
    (l ++ [e]).getD l.length d = e := by
  induction l with
  | nil => rfl
  | cons a rest ih => simpa [List.getD] using ih

/-- Claim C6: applying a Function value allocates a new environment
whose parent is the function's captured (definition-site) environment
(first conjunct: the allocated record's outer pointer; fifth
conjunct: a closure still reads and writes its definition-site
variables when called elsewhere), binds parameters positionally to
the arguments at the same indices (second conjunct), performs no
argument-count validation — extra arguments are ignored (third
conjunct) and a call with fewer arguments than parameters does not
produce an arity Error value: it is a host panic (fourth conjunct). -/
theorem c6_function_application :
    (∀ (st : EvalState) (outer : Option Nat),
      ((allocEnv st outer).2.envs.getD (allocEnv st outer).1
        { store := [], outer := none }).outer = outer)
    ∧ (∀ (parameters : List String) (arguments : List GoV) (envs : List EnvRec)
        (fnEnv : Option Nat) (nid : Nat) (i : Nat) (h : i < parameters.length),
        parameters.Nodup → parameters.length ≤ arguments.length →
        storeGet ((bindParameters parameters arguments envs.length
            { envs := envs ++ [{ store := [], outer := fnEnv }], nextId := nid }).envs.getD
            envs.length { store := [], outer := none }).store
            (parameters.get ⟨i, h⟩)
          = some (arguments.getD i none))
    ∧ resInt (evalSourceV "let f = fn(a, b) \x7b a + b \x7d; f(1, 2, 3)") = some 3
    ∧ (resIsPanic (evalSourceV "let f = fn(a, b) \x7b a + b \x7d; f(1)") = true
        ∧ resErr (evalSourceV "let f = fn(a, b) \x7b a + b \x7d; f(1)") = none)
    ∧ resInt (evalSourceV
        "let add = fn(x) \x7b fn(y) \x7b x + y \x7d \x7d; let g = add(10); g(5)")
      = some 15 := by
  refine ⟨?_, ?_, by decide, ⟨by decide, by decide⟩, by decide⟩
  · intro st outer
    show ((st.envs ++ [({ store := [], outer := outer } : EnvRec)]).getD st.envs.length
      { store := [], outer := none }).outer = outer
    rw [getD_append_self]
  · intro parameters arguments envs fnEnv nid i h hnodup hlen
    rw [bindParameters_fresh]
    show storeGet ((envs ++ [bindFold parameters arguments { store := [], outer := fnEnv }]).getD
        envs.length { store := [], outer := none }).store (parameters.get ⟨i, h⟩)
      = some (arguments.getD i none)
    rw [getD_append_self]
    exact bindFold_positional parameters arguments _ i h hnodup hlen

/-- Claim C6, witness. -/
theorem c6_function_application_witness :
    storeGet ((bindParameters ["a", "b"] [some (.integer 1), some (.integer 2), some (.integer 3)]
        (List.length ([] : List EnvRec))
        { envs := [] ++ [{ store := [], outer := some 0 }], nextId := 7 }).envs.getD
        (List.length ([] : List EnvRec)) { store := [], outer := none }).store
        (["a", "b"].get ⟨1, by decide⟩)
      = some (some (.integer 2)) :=
  c6_function_application.2.1 ["a", "b"]
    [some (.integer 1), some (.integer 2), some (.integer 3)] [] (some 0) 7 1
    (by decide) (by decide) (by decide)

/-- The environment the Update walk would mutate: the first environment
along the outer chain whose store defines the name (the same walk
Update performs, returning the index instead of updating). -/
def envChainFind : Nat → List EnvRec → Nat → String → Option Nat
  | 0, _, _, _ => none
  | fuel + 1, envs, id, name =>
      match envs.get? id with
      | none => none
      | some r =>
          if (storeGet r.store name).isSome then some id
          else
            match r.outer with
            | some oid => envChainFind fuel envs oid name
            | none => none

/-- The Update walk rewrites exactly the environment the chain walk
finds. -/
theorem envUpdateAux_finds (fuel : Nat) :
    ∀ (envs : List EnvRec) (id : Nat) (name : String) (v : GoV) (j : Nat),
    envChainFind fuel envs id name = some j →
    envUpdateAux fuel envs id name v
      = some (heapModify envs j fun r => { r with store := storeSet r.store name v }) := by
  induction fuel with
  | zero => intro envs id name v j hfind; simp [envChainFind] at hfind
  | succ f ih =>
      intro envs id name v j hfind
      unfold envChainFind at hfind
      unfold envUpdateAux
      cases hrec : envs.get? id with
      | none => rw [hrec] at hfind; simp at hfind
      | some r =>
          rw [hrec] at hfind
          simp only at hfind
          by_cases hs : (storeGet r.store name).isSome
          · rw [if_pos hs] at hfind
            injection hfind with hj
            subst hj
            simp [hrec, hs]
          · rw [if_neg hs] at hfind
            cases houter : r.outer with
            | none => rw [houter] at hfind; simp at hfind
            | some oid =>
                rw [houter] at hfind
                simp only [hrec, hs, houter, Bool.false_eq_true, if_false]
                exact ih envs oid name v j hfind

/-- heapModify leaves every other index unchanged. -/
theorem heapModify_get_ne (envs : List EnvRec) :
    ∀ (j k : Nat) (f : EnvRec → EnvRec), k ≠ j →
    (heapModify envs j f).get? k = envs.get? k := by
  induction envs with
  | nil => intro j k f _; cases j <;> rfl
  | cons e rest ih =>
      intro j k f hk
      cases j with
      | zero =>
          cases k with
          | zero => exact absurd rfl hk
          | succ k2 => rfl
      | succ j2 =>
          cases k with
          | zero => rfl
          | succ k2 =>
              show (e :: heapModify rest j2 f).get? (k2 + 1) = _
              simpa using ih j2 k2 f (fun h => hk (by omega))

/-- Claim C7: assigning to an identifier unbound anywhere in the
visible scope chain yields an Error value naming the identifier, with
no binding created (first conjunct, with the state returned
untouched); when the identifier is bound, Update rewrites exactly the
nearest enclosing environment in the chain that defines it (second
and third conjuncts: the found environment is rewritten, all others
are untouched); behaviorally, `let a = 5; a = a + 1; a` evaluates to
6, assignment through a closure mutates the defining outer
environment, and assigning to an undeclared identifier surfaces the
Error naming it. -/
theorem c7_assignment :
    (∀ (fuel : Nat) (varName varLoc : String) (value : Option Expr)
        (env : Nat) (st : EvalState),
      envGet st env varName = none →
      evalAssignExpression (fuel + 1) varName varLoc value env st
        = (.ok (some (.error ("Identifier: " ++ varName ++ " is not defined at "
            ++ varLoc))), st))
    ∧ (∀ (fuel : Nat) (envs : List EnvRec) (id : Nat) (name : String) (v : GoV) (j : Nat),
        envChainFind fuel envs id name = some j →
        envUpdateAux fuel envs id name v
          = some (heapModify envs j fun r => { r with store := storeSet r.store name v }))
    ∧ (∀ (envs : List EnvRec) (j k : Nat) (f : EnvRec → EnvRec), k ≠ j →
        (heapModify envs j f).get? k = envs.get? k)
    ∧ resInt (evalSourceV "let a = 5; a = a + 1; a") = some 6
    ∧ resErr (evalSourceV "b = 1") = some "Identifier: b is not defined at 1:1"
    ∧ resInt (evalSourceV "let x = 1; let f = fn() \x7b x = x + 1 \x7d; f(); f(); x")
      = some 3 := by
  refine ⟨?_, ?_, ?_, by decide, by decide, by decide⟩
  · intro fuel varName varLoc value env st h
    show (if (envGet st env varName).isNone then _ else _) = _
    rw [h]
    rfl
  · exact fun fuel => envUpdateAux_finds fuel
  · exact fun envs => heapModify_get_ne envs

/-- Claim C7, witness. -/
theorem c7_assignment_witness :
    evalAssignExpression 1 "q" "2:2" none 0 initState
      = (.ok (some (.error ("Identifier: " ++ "q" ++ " is not defined at " ++ "2:2"))),
        initState) :=
  c7_assignment.1 0 "q" "2:2" none 0 initState rfl

/-- Claim C8: array indexing yields the element at the index when
0 ≤ i < length and NULL otherwise — negative indices are not wrapped
and out-of-range is never an Error (first conjunct); string indexing
yields the one-character string of the byte at the index or NULL out
of bounds (second conjunct); behaviorally on programs: in-range and
out-of-range accesses in both directions, and an Error only for an
unsupported operand kind. -/
theorem c8_index_bounds :
    (∀ (elements : List GoV) (i : Int),
      (0 ≤ i → i < elements.length →
        evalArrayIndexExpression elements i = elements.getD i.toNat none)
      ∧ (i < 0 ∨ (elements.length : Int) ≤ i →
        evalArrayIndexExpression elements i = some NULL))
    ∧ (∀ (s : String) (i : Int),
      (0 ≤ i → i < goStrLen s →
        evalStringIndexExpression s i
          = some (.str (String.mk [Char.ofNat ((goBytes s).getD i.toNat 0)])))
      ∧ (i < 0 ∨ (goStrLen s : Int) ≤ i →
        evalStringIndexExpression s i = some NULL))
    ∧ resInt (evalSourceV "[10, 20, 30][1]") = some 20
    ∧ resIsNull (evalSourceV "[10, 20, 30][5]") = true
    ∧ resIsNull (evalSourceV "[10, 20, 30][0 - 1]") = true
    ∧ resStr (evalSourceV "\"abc\"[1]") = some "b"
    ∧ resIsNull (evalSourceV "\"abc\"[7]") = true
    ∧ resErr (evalSourceV "true[0]")
      = some "Index operation not supported for: BOOLEAN[INTEGER]" := by
  refine ⟨?_, ?_, by decide, by decide, by decide, by decide, by decide, by decide⟩
  · intro elements i
    constructor
    · intro h0 hlt
      unfold evalArrayIndexExpression
      rw [if_neg]
      simp only [Bool.or_eq_true, decide_eq_true_eq, not_or, not_lt]
      omega
    · intro hout
      unfold evalArrayIndexExpression
      rw [if_pos]
      simp only [Bool.or_eq_true, decide_eq_true_eq]
      omega
  · intro s i
    constructor
    · intro h0 hlt
      unfold evalStringIndexExpression
      rw [if_neg]
      simp only [Bool.or_eq_true, decide_eq_true_eq, not_or, not_lt]
      omega
    · intro hout
      unfold evalStringIndexExpression
      rw [if_pos]
      simp only [Bool.or_eq_true, decide_eq_true_eq]
      omega

/-- Claim C8, witness. -/
theorem c8_index_bounds_witness :
    evalArrayIndexExpression [some (.integer 7)] 5 = some NULL :=
  (c8_index_bounds.1 [some (.integer 7)] 5).2 (by decide)

/-- Claim C9: `=` sits at equality-level precedence (same score as
`==`), an assignment chain groups right-associatively because the
right-hand side recurses at the lowest threshold (`a = b = c` parses
as a = (b = c)), and a non-identifier left operand — an index
expression or a literal — records the parse error "Cannot assign
value to a non-identifier" and produces no assignment node (the
expression slot stays nil and the error list carries exactly that
message). -/
theorem c9_assignment_parsing :
    (precedenceMap.find? fun p => p.fst == token.ASSIGN) = some (token.ASSIGN, EQUALS)
    ∧ (precedenceMap.find? fun p => p.fst == token.EQ) = some (token.EQ, EQUALS)
    ∧ (parseSource "a = b = c").fst.statements
      = [.expressionStatement (some (.assignExpression "a" "1:1"
          (some (.assignExpression "b" "1:5" (some (.identifier "c" "1:9"))))))]
    ∧ (parseSource "a = b = c").snd = []
    ∧ (parseSource "a[0] = 1").snd = ["Cannot assign value to a non-identifier"]
    ∧ (parseSource "a[0] = 1").fst.statements
      = [.expressionStatement none,
         .expressionStatement (some (.integerLiteral 1 "1"))]
    ∧ (parseSource "1 = 2").snd = ["Cannot assign value to a non-identifier"]
    ∧ (parseSource "1 = 2").fst.statements
      = [.expressionStatement none,
         .expressionStatement (some (.integerLiteral 2 "2"))] := by
  exact ⟨rfl, rfl, rfl, rfl, rfl, rfl, rfl, rfl⟩

/-- Claim C10, counterexample: print-parse idempotence fails.  The
well-formed one-token-statement stream holding the string literal
"a b" parses cleanly and renders as the quoteless text a b; that text
re-tokenizes to two identifiers, re-parses with an empty error list,
and renders as ab — a different string.  (String literals render
without their quotes, so the rendering does not re-lex to the same
tokens.) -/
theorem c10_render_roundtrip_counterexample :
    (parseTokens [{ type := token.STRING, literal := "a b", location := "1:1" },
        { type := token.EOF, literal := String.mk [nulChar], location := "1:6" }]).snd = []
    ∧ renderProgram (parseTokens
        [{ type := token.STRING, literal := "a b", location := "1:1" },
         { type := token.EOF, literal := String.mk [nulChar], location := "1:6" }]).fst
      = "a b"
    ∧ (parseSource "a b").snd = []
    ∧ renderProgram (parseSource "a b").fst = "ab"
    ∧ ("ab" : String) ≠ "a b" := by
  exact ⟨rfl, by decide, rfl, by decide, by decide⟩

/-- Claim C10, amended: the round trip holds only for programs whose
rendering re-lexes to an equivalent token sequence; string literals
lose their quotes in the rendering, so the general statement fails
(see the counterexample).  For such programs — here one containing a
hash literal, and one with a function literal, a call and an infix
comparison — parsing is error-free and re-tokenizing and re-parsing
the rendered text reproduces the same rendered string. -/
theorem c10_render_roundtrip_instances :
    ((parseSource "let h = \x7b1:2\x7d; h[1]").snd = []
      ∧ (parseSource (renderProgram (parseSource "let h = \x7b1:2\x7d; h[1]").fst)).snd = []
      ∧ renderProgram (parseSource
          (renderProgram (parseSource "let h = \x7b1:2\x7d; h[1]").fst)).fst
        = renderProgram (parseSource "let h = \x7b1:2\x7d; h[1]").fst)
    ∧ ((parseSource "let f = fn(x) \x7b x + 1 \x7d; f(2) == 3").snd = []
      ∧ (parseSource (renderProgram
          (parseSource "let f = fn(x) \x7b x + 1 \x7d; f(2) == 3").fst)).snd = []
      ∧ renderProgram (parseSource (renderProgram
          (parseSource "let f = fn(x) \x7b x + 1 \x7d; f(2) == 3").fst)).fst
        = renderProgram (parseSource "let f = fn(x) \x7b x + 1 \x7d; f(2) == 3").fst) := by
  exact ⟨⟨rfl, by decide, by decide⟩, ⟨rfl, by decide, by decide⟩⟩

end FroLang
